import Mathlib

/-!
Formal model of the suburb-analysis backend (`propanalysistest`), used to check
the natural-language specification against the code.

The Python source is shallowly embedded:

* JSON-like Python values are modelled by the inductive type `Json`
  (`Json.null` doubles as Python `None`); Python truthiness is `Json.truthy`.
* Python floats are modelled by `ℚ` (ideal arithmetic; the claims under test do
  not depend on binary floating-point rounding).  `round(x, n)` is modelled by
  half-even rounding (`pyRoundHE`), `int(x)` by truncation (`pyTrunc`).
* Code that can raise is modelled in the `Except Unit` monad; a raised
  exception is `Except.error ()`.
* Adapter calls made by the composite repository are abstracted by their
  observable outcome (`CallOutcome`): either the call raises, or it returns a
  value.
-/

namespace PropSpec

/-- JSON-like Python value.  `null` models Python `None` as well as JSON null. -/
inductive Json where
  | null
  | bool (b : Bool)
  | num (q : ℚ)
  | str (s : String)
  | arr (xs : List Json)
  | obj (kvs : List (String × Json))

instance : Inhabited Json := ⟨Json.null⟩

/-- Python truthiness (`if value:`): `None`, `False`, `0`, `""`, `[]`, and
an empty dict are falsy, everything else is truthy. -/
def Json.truthy : Json → Bool
  | .null => false
  | .bool b => b
  | .num q => decide (q ≠ 0)
  | .str s => decide (s ≠ "")
  | .arr xs => !xs.isEmpty
  | .obj kvs => !kvs.isEmpty

/-! ### Python operation helpers on `Json` values

Fallible Python operations are modelled in the `Except Unit` monad;
`Except.error ()` models a raised exception. -/

/-- Whether the character list `needle` occurs contiguously at the start of
`hay` (helper for Python substring tests). -/
def startsWithChars : List Char → List Char → Bool
  | [], _ => true
  | _ :: _, [] => false
  | a :: as, b :: bs => a == b && startsWithChars as bs

/-- Whether the character list `needle` occurs contiguously anywhere in `hay`
(Python `needle in hay` on strings). -/
def containsChars (needle : List Char) : List Char → Bool
  | [] => needle.isEmpty
  | c :: cs => startsWithChars needle (c :: cs) || containsChars needle cs

/-- ASCII lowercasing of a string (Python `str.lower()`; the identifiers and
names this system handles are ASCII). -/
def lowerStr (s : String) : String := ⟨s.data.map Char.toLower⟩

/-- Python `k in data`: key membership on a dict, element equality on a list
(a string key can only equal string elements), substring test on a string;
a `TypeError` on the remaining types. -/
def pyIn (k : String) : Json → Except Unit Bool
  | .obj kvs => .ok (kvs.any (fun kv => kv.1 == k))
  | .arr xs => .ok (xs.any (fun x => match x with | .str t => t == k | _ => false))
  | .str s => .ok (containsChars k.data s.data)
  | _ => .error ()

/-- Python `data[k]` for a string key: dict item access (`KeyError` when the
key is missing, modelled as an exception); `TypeError` on anything else. -/
def pyGetItem (d : Json) (k : String) : Except Unit Json :=
  match d with
  | .obj kvs =>
    match kvs.lookup k with
    | some v => .ok v
    | none => .error ()
  | _ => .error ()

/-- Python `data.get(k, dflt)`: only dicts have `.get` (`AttributeError`
otherwise). -/
def pyDictGet (d : Json) (k : String) (dflt : Json) : Except Unit Json :=
  match d with
  | .obj kvs => .ok ((kvs.lookup k).getD dflt)
  | _ => .error ()

/-- Python `next(iter(data.keys()))`: the first key of a dict in insertion
order; raises on a non-dict (`AttributeError`) and on an empty dict
(`StopIteration`). -/
def pyFirstKey : Json → Except Unit String
  | .obj ((k, _) :: _) => .ok k
  | _ => .error ()

/-! ### Composite repository (`backend/repositories/composite_repository.py`)

The behaviour of one underlying adapter method call is abstracted by its
outcome: it raises, or it returns a Python value. -/

/-- Outcome of invoking one adapter method: the call raises an exception, or it
returns a value (`Json.null` models a method returning `None`). -/
inductive CallOutcome where
  | raises
  | returns (v : Json)

/-- The file-fallback half of `CompositeSuburbRepository._try_api_then_file`
(lines 62-73): call the file repository inside `try`; return its result when
truthy, otherwise fall through to `return None`; a raised exception is caught
and also falls through to `return None`. -/
def tryFileFallback : CallOutcome → CallOutcome
  | .returns v => if v.truthy then .returns v else .returns .null
  | .raises => .returns .null

/-- `CompositeSuburbRepository._try_api_then_file` together with call counts:
try the API repository first inside `try` (one API call, always); if it
returns a truthy result, return it without touching the file repository;
otherwise (falsy result or exception, which is caught) make one file-repository
call via `tryFileFallback`.  The components are
(result, number of API calls, number of file calls). -/
def tryApiThenFileTrace (api fileO : CallOutcome) : CallOutcome × ℕ × ℕ :=
  match api with
  | .returns v => if v.truthy then (.returns v, 1, 0) else (tryFileFallback fileO, 1, 1)
  | .raises => (tryFileFallback fileO, 1, 1)

/-- The second (and therefore effective) definition of
`CompositeSuburbRepository.get_street_rankings` (lines 210-222).  It shadows
the first definition (lines 198-208, which delegated to
`_try_api_then_file`): it calls the API repository directly with no
`try`/`except`, so an exception from the API repository propagates to the
caller; on a falsy API result it returns whatever the file repository call
produces (including propagating a file-repository exception). -/
def getStreetRankingsTrace (api fileO : CallOutcome) : CallOutcome × ℕ × ℕ :=
  match api with
  | .raises => (.raises, 1, 0)
  | .returns v =>
    if v.truthy then (.returns v, 1, 0)
    else
      match fileO with
      | .raises => (.raises, 1, 1)
      | .returns w => (.returns w, 1, 1)

/-- The domain operations exposed by the composite repository. -/
inductive DomainOp where
  | searchSuburbs
  | suburbInfo
  | suburbSummary
  | demographics
  | amenities
  | marketTrends
  | schools
  | developments
  | marketInsights
  | pocketInsights
  | streetInsights
  | riskFactors
  | schoolCatchments
  | zoning
  | similarSuburbs
  | streetRankings
deriving DecidableEq

/-- One invocation of a composite-repository domain operation, given the
outcome each underlying adapter method would produce if called.  All
operations delegate to `_try_api_then_file` except: `search_suburbs`
additionally replaces a falsy result by `[]` (line 78), and
`get_street_rankings` is the shadowing direct implementation
(`getStreetRankingsTrace`). -/
def compositeTrace (op : DomainOp) (api fileO : CallOutcome) : CallOutcome × ℕ × ℕ :=
  match op with
  | .streetRankings => getStreetRankingsTrace api fileO
  | .searchSuburbs =>
    let t := tryApiThenFileTrace api fileO
    (match t.1 with
     | .returns v => (.returns (if v.truthy then v else .arr []), t.2.1, t.2.2)
     | .raises => (.raises, t.2.1, t.2.2))
  | _ => tryApiThenFileTrace api fileO

/-- The value (or exception) a composite-repository domain operation produces. -/
def compositeCall (op : DomainOp) (api fileO : CallOutcome) : CallOutcome :=
  (compositeTrace op api fileO).1

/-! ### File repository (`backend/repositories/file_repository.py`)

The state of one snapshot file as `_load_file` observes it: absent
(`FileNotFoundError`), present but unparsable (`json.JSONDecodeError`, and
likewise any other load error), or readable with some parsed JSON content.
`_load_file` returns `None` (here `Json.null`) in the two failure states. -/

inductive FileState where
  | absent
  | invalid
  | readable (data : Json)

/-- `FileSuburbRepository._load_file`: the parsed content, or `None` when the
file is absent or fails to parse. -/
def loadFile : FileState → Json
  | .absent => .null
  | .invalid => .null
  | .readable d => d

/-- `FileSuburbRepository.search_suburbs`: load `suburbs.json`; on falsy data
return `[]`; otherwise take `data.get('suburbs', [])`, filter by a
case-insensitive substring match on each entry's name when the query is
non-empty, and return the first 10 entries. -/
def fileSearchSuburbs (st : FileState) (query : String) : Except Unit Json := do
  let data := loadFile st
  if ¬ data.truthy then return .arr []
  let suburbs ← pyDictGet data "suburbs" (.arr [])
  if query ≠ "" then
    let ql := lowerStr query
    let items ← (match suburbs with
      | .arr xs => .ok xs
      | .obj kvs => .ok (kvs.map (fun kv => .str kv.1))
      | .str s => .ok (s.data.map (fun c => .str ⟨[c]⟩))
      | _ => .error ())
    let filtered ← items.foldrM (fun s acc => do
      let nm ← pyDictGet s "name" (.str "")
      let nms ← (match nm with | .str t => Except.ok (lowerStr t) | _ => .error ())
      pure (if containsChars ql.data nms.data then s :: acc else acc)) []
    return .arr (filtered.take 10)
  else
    match suburbs with
    | .arr xs => return .arr (xs.take 10)
    | .str s => return .str ⟨s.data.take 10⟩
    | _ => .error ()

/-- `FileSuburbRepository.get_suburb_info`: `data.get(suburb_id)` when the
loaded data is truthy, else `None`.  No first-entry substitution happens
here. -/
def fileGetSuburbInfo (st : FileState) (suburbId : String) (_geojson : Bool) :
    Except Unit Json := do
  let data := loadFile st
  if data.truthy then pyDictGet data suburbId .null else return .null

/-- `FileSuburbRepository.get_suburb_summary`: same shape as
`get_suburb_info` (no first-entry substitution). -/
def fileGetSuburbSummary (st : FileState) (suburbId : String) : Except Unit Json := do
  let data := loadFile st
  if data.truthy then pyDictGet data suburbId .null else return .null

/-- Shared body of the five file-repository operations that substitute the
first snapshot entry (`get_demographics`, `get_amenities`,
`get_market_trends`, `get_schools`, `get_developments`): if the loaded data is
truthy and contains the identifier, wrap that entry; else if the data is
truthy, wrap the data of the first key in insertion order under the requested
identifier; else return the operation's empty structure wrapped likewise. -/
def fileKeyedFallback (st : FileState) (suburbId : String) (empty : Json) :
    Except Unit Json := do
  let data := loadFile st
  if data.truthy then
    if ← pyIn suburbId data then
      return .obj [(suburbId, ← pyGetItem data suburbId)]
  if data.truthy then
    let firstKey ← pyFirstKey data
    return .obj [(suburbId, ← pyGetItem data firstKey)]
  return .obj [(suburbId, empty)]

/-- `FileSuburbRepository.get_demographics`. -/
def fileGetDemographics (st : FileState) (suburbId : String) : Except Unit Json :=
  fileKeyedFallback st suburbId (.obj [("ageDistribution", .arr []), ("ethnicity", .arr [])])

/-- `FileSuburbRepository.get_amenities`. -/
def fileGetAmenities (st : FileState) (suburbId : String) : Except Unit Json :=
  fileKeyedFallback st suburbId (.obj [("categories", .arr []), ("total", .num 0)])

/-- `FileSuburbRepository.get_market_trends`. -/
def fileGetMarketTrends (st : FileState) (suburbId : String) : Except Unit Json :=
  fileKeyedFallback st suburbId
    (.obj [("priceHistory", .arr []), ("quarterlyGrowth", .num 0),
           ("rentalYield", .num 0), ("daysOnMarket", .num 0)])

/-- `FileSuburbRepository.get_schools`. -/
def fileGetSchools (st : FileState) (suburbId : String) : Except Unit Json :=
  fileKeyedFallback st suburbId (.obj [("schools", .arr []), ("total", .num 0)])

/-- `FileSuburbRepository.get_developments`. -/
def fileGetDevelopments (st : FileState) (suburbId : String) : Except Unit Json :=
  fileKeyedFallback st suburbId
    (.obj [("developments", .arr []), ("total", .num 0), ("showing", .num 0)])

/-- Shared body of the file-repository operations that return
`{suburb_id: data.get(suburb_id, dflt)}` when data is truthy and
`{suburb_id: dflt}` otherwise (`get_market_insights`, `get_pocket_insights`,
`get_street_insights`, `get_risk_factors`, `get_school_catchments`,
`get_zoning`, `get_similar_suburbs`). -/
def fileKeyedDefault (st : FileState) (suburbId : String) (dflt : Json) :
    Except Unit Json := do
  let data := loadFile st
  if data.truthy then
    return .obj [(suburbId, ← pyDictGet data suburbId dflt)]
  return .obj [(suburbId, dflt)]

/-- `FileSuburbRepository.get_market_insights`. -/
def fileGetMarketInsights (st : FileState) (suburbId : String)
    (_metric _propertyType : Json) : Except Unit Json :=
  fileKeyedDefault st suburbId (.obj [])

/-- `FileSuburbRepository.get_pocket_insights`. -/
def fileGetPocketInsights (st : FileState) (suburbId : String)
    (_geojson : Bool) (_propertyType : Json) : Except Unit Json :=
  fileKeyedDefault st suburbId (.obj [])

/-- `FileSuburbRepository.get_street_insights`. -/
def fileGetStreetInsights (st : FileState) (suburbId : String)
    (_geojson : Bool) (_propertyType : Json) : Except Unit Json :=
  fileKeyedDefault st suburbId (.obj [])

/-- `FileSuburbRepository.get_risk_factors`. -/
def fileGetRiskFactors (st : FileState) (suburbId : String) (_geojson : Bool) :
    Except Unit Json :=
  fileKeyedDefault st suburbId (.obj [])

/-- `FileSuburbRepository.get_school_catchments`. -/
def fileGetSchoolCatchments (st : FileState) (suburbId : String) (_geojson : Bool) :
    Except Unit Json :=
  fileKeyedDefault st suburbId (.arr [])

/-- `FileSuburbRepository.get_zoning`. -/
def fileGetZoning (st : FileState) (suburbId : String) (_geojson : Bool) :
    Except Unit Json :=
  fileKeyedDefault st suburbId (.obj [])

/-- `FileSuburbRepository.get_similar_suburbs`. -/
def fileGetSimilarSuburbs (st : FileState) (suburbId : String) (_geojson : Bool) :
    Except Unit Json :=
  fileKeyedDefault st suburbId (.arr [])

/-- `FileSuburbRepository.get_street_rankings`: not implemented, always
`None` (the file is not even consulted). -/
def fileGetStreetRankings (_st : FileState) (_suburbId : String)
    (_propertyType : Json) : Except Unit Json :=
  .ok .null

/-! ### Numeric helpers (Python `round`, `int`, `statistics`)

Python floats are modelled by `ℚ`.  `round(x, n)` uses round-half-to-even;
`int(x)` truncates toward zero. -/

/-- Round a rational to the nearest integer, ties to even (Python `round`). -/
def pyRoundHE (q : ℚ) : ℤ :=
  let f : ℤ := ⌊q⌋
  let r : ℚ := q - f
  if r < 1/2 then f
  else if 1/2 < r then f + 1
  else if f % 2 = 0 then f else f + 1

/-- Python `round(q, n)`. -/
def pyRound (q : ℚ) (n : ℕ) : ℚ := (pyRoundHE (q * 10 ^ n) : ℚ) / 10 ^ n

/-- Python `int(q)`: truncation toward zero. -/
def pyTrunc (q : ℚ) : ℤ := if 0 ≤ q then ⌊q⌋ else ⌈q⌉

/-- `statistics.mean` (exact; only ever called on non-empty lists by the
source, which guards `len < 2` first). -/
def meanQ (xs : List ℚ) : ℚ := xs.sum / xs.length

/-- The sample (Bessel-corrected) variance computed by `statistics.stdev`
before its square root: `Σ (x − mean)² / (n − 1)`. -/
def sampleVarQ (xs : List ℚ) : ℚ :=
  ((xs.map (fun x => (x - meanQ xs) ^ 2)).sum) / ((xs.length : ℚ) - 1)

/-- The population variance `Σ (x − mean)² / n` (what `statistics.pstdev`
would square-root; used only to state the claim under test). -/
def popVarQ (xs : List ℚ) : ℚ :=
  ((xs.map (fun x => (x - meanQ xs) ^ 2)).sum) / (xs.length : ℚ)

/-! ### Market analytics (`backend/services/data_aggregator.py`) -/

/-- One extracted price point as built by
`DataAggregatorService._extract_price_series`: the raw `date` value (kept as
the Json value found in the record) and the three float prices. -/
structure PricePoint where
  date : Json
  suburb : ℚ
  cr : ℚ
  sa3 : ℚ

/-- `DataAggregatorService._calculate_volatility`: `0.0` for fewer than two
price points or a zero mean, otherwise `statistics.stdev(prices) / mean`,
i.e. the sample (Bessel-corrected) coefficient of variation. -/
noncomputable def calculate_volatility (prices : List ℚ) : ℝ :=
  if prices.length < 2 then 0
  else if meanQ prices = 0 then 0
  else Real.sqrt (sampleVarQ prices) / (meanQ prices : ℝ)

/-- Decides `calculate_volatility prices < c` without square roots (by
comparing squares), so that the downstream score/bucket branches stay
computable.  `volLtB_iff` proves it agrees with the real-valued
definition. -/
def volLtB (prices : List ℚ) (c : ℚ) : Bool :=
  if prices.length < 2 then decide (0 < c)
  else if meanQ prices = 0 then decide (0 < c)
  else if 0 < meanQ prices then
    decide (0 < c) && decide (sampleVarQ prices < (c * meanQ prices) ^ 2)
  else
    if 0 ≤ c then decide (0 < c) || decide (0 < sampleVarQ prices)
    else decide ((c * meanQ prices) ^ 2 < sampleVarQ prices)

/-- Decides `calculate_volatility prices > c` (see `volGtB_iff`). -/
def volGtB (prices : List ℚ) (c : ℚ) : Bool :=
  if prices.length < 2 then decide (c < 0)
  else if meanQ prices = 0 then decide (c < 0)
  else if 0 < meanQ prices then
    if c < 0 then true else decide ((c * meanQ prices) ^ 2 < sampleVarQ prices)
  else
    if c < 0 then decide (sampleVarQ prices < (c * meanQ prices) ^ 2) else false

/-- `DataAggregatorService._detect_trend`: on the recent slice of the series,
filter to positive suburb values; fewer than 2 usable points is `stable`;
otherwise classify the first-to-last percent change with the ±2 thresholds. -/
def detect_trend (recent : List PricePoint) : String :=
  if recent.length < 2 then "stable"
  else
    let prices := (recent.map (·.suburb)).filter (fun x => decide (0 < x))
    if prices.length < 2 then "stable"
    else
      let firstPrice := prices.headD 0
      let lastPrice := prices.getLastD 0
      let changePct := if 0 < firstPrice then (lastPrice - firstPrice) / firstPrice * 100 else 0
      if 2 < changePct then "rising"
      else if changePct < -2 then "declining"
      else "stable"

/-- One side (`cr` or `sa3`) of the regional comparison dict. -/
structure RegionEntry where
  price : ℤ
  difference : ℚ
  status : String

/-- Result of `DataAggregatorService._calculate_regional_comparison`. -/
structure RegionalComparison where
  cr : RegionEntry
  sa3 : RegionEntry

/-- `DataAggregatorService._calculate_regional_comparison`: empty series
gives price 0, difference 0, status `"below"` on both sides; otherwise uses
only the latest point, computes `diff% = (suburb − region)/region × 100`
guarded to 0 when the region value is not positive, rounds to 1 decimal, and
sets status `"below"` iff the (unrounded) diff is negative. -/
def calculate_regional_comparison : List PricePoint → RegionalComparison
  | [] => ⟨⟨0, 0, "below"⟩, ⟨0, 0, "below"⟩⟩
  | p :: ps =>
    let latest := (p :: ps).getLastD p
    let suburbPrice := latest.suburb
    let crDiff := if 0 < latest.cr then (suburbPrice - latest.cr) / latest.cr * 100 else 0
    let sa3Diff := if 0 < latest.sa3 then (suburbPrice - latest.sa3) / latest.sa3 * 100 else 0
    ⟨⟨pyTrunc latest.cr, pyRound crDiff 1, if crDiff < 0 then "below" else "above"⟩,
     ⟨pyTrunc latest.sa3, pyRound sa3Diff 1, if sa3Diff < 0 then "below" else "above"⟩⟩

/-- The `growth_ratio` local of `_calculate_investment_score`:
`series[-1]['suburb'] / series[0]['suburb']` when the first suburb value is
positive, else the default `1`. -/
def growthMultiple : List PricePoint → ℚ
  | [] => 1
  | p :: ps => if 0 < p.suburb then ((p :: ps).getLastD p).suburb / p.suburb else 1

/-- The `growth_score` local of `_calculate_investment_score`:
`min(growth_ratio, 3) * 3.33`. -/
def growth_score (series : List PricePoint) : ℚ :=
  min (growthMultiple series) 3 * (333/100)

/-- Fixed-point decimal formatting of a rational (Python `f"{x:.nf}"`),
used only to build insight strings. -/
def formatFixed (q : ℚ) (n : ℕ) : String :=
  let scaled : ℤ := pyRoundHE (q * 10 ^ n)
  let sign := if scaled < 0 then "-" else ""
  let m := scaled.natAbs
  if n = 0 then sign ++ toString m
  else
    let ip := m / 10 ^ n
    let fp := m % 10 ^ n
    let fpStr := toString fp
    let pad := String.mk (List.replicate (n - fpStr.length) '0')
    sign ++ toString ip ++ "." ++ pad ++ fpStr

/-- Result of `DataAggregatorService._calculate_investment_score`. -/
structure InvestmentAnalysis where
  score : ℚ
  volatilityBucket : String
  trend : String
  insights : List String

/-- `DataAggregatorService._calculate_investment_score`.  The source computes
`volatility = self._calculate_volatility(prices)` once and compares it with
the constants 0.1 / 0.15 / 0.2 / 0.25; those comparisons are decided here by
`volLtB`/`volGtB` on the same `prices`, which agree exactly with the
real-valued `calculate_volatility` (lemmas `volLtB_iff`, `volGtB_iff`). -/
def calculate_investment_score (series : List PricePoint)
    (comparison : RegionalComparison) : InvestmentAnalysis :=
  match series with
  | [] => ⟨0, "low", "stable", []⟩
  | p :: ps =>
    let s := p :: ps
    let prices := (s.map (·.suburb)).filter (fun x => decide (0 < x))
    let recentData := if 6 ≤ s.length then s.drop (s.length - 6) else s
    let trend := detect_trend recentData
    let gscore := growth_score s
    let crDiff := comparison.cr.difference
    let vscore : ℚ := if crDiff < -10 then 10 else if crDiff < -5 then 8
      else if crDiff < 0 then 6 else 4
    let sscore : ℚ := if volLtB prices (1/10) then 10
      else if volLtB prices (3/20) then 7 else 5
    let total := gscore * (2/5) + vscore * (3/10) + sscore * (3/10)
    let insights : List String :=
      (if crDiff < -10 then
        ["Excellent value - " ++ formatFixed |crDiff| 1 ++ "% below regional average"]
       else if crDiff < -5 then
        ["Good value - " ++ formatFixed |crDiff| 1 ++ "% below regional average"]
       else []) ++
      (if trend == "rising" then ["Positive price momentum in recent months"]
       else if trend == "declining" then ["Price declining in recent months"]
       else []) ++
      (if volLtB prices (1/10) then ["Stable market with low volatility"]
       else if volGtB prices (1/5) then ["High price volatility - higher risk"]
       else []) ++
      (if 2 < growthMultiple s then
        ["Strong long-term growth of " ++ formatFixed ((growthMultiple s - 1) * 100) 0 ++ "%"]
       else [])
    ⟨pyRound total 1,
     if volLtB prices (3/20) then "low"
     else if volLtB prices (1/4) then "medium" else "high",
     trend, insights⟩

/-! ### Date handling (`datetime.strptime(date, '%Y-%m-%d')`)

Parsed dates are modelled as day numbers (days since 1970-01-01), so that
`timedelta(days=365)` is subtraction of 365. -/

/-- Length of a Gregorian month. -/
def daysInMonth (y m : ℕ) : ℕ :=
  if m = 2 then (if (y % 4 = 0 ∧ y % 100 ≠ 0) ∨ y % 400 = 0 then 29 else 28)
  else if m = 4 ∨ m = 6 ∨ m = 9 ∨ m = 11 then 30 else 31

/-- Days since 1970-01-01 of the civil date `y-m-d` (standard
era/year-of-era formula; callers guarantee `1 ≤ y`). -/
def daysFromCivil (y m d : ℤ) : ℤ :=
  let yAdj := if m ≤ 2 then y - 1 else y
  let era := yAdj / 400
  let yoe := yAdj - era * 400
  let mp := (m + 9) % 12
  let doy := (153 * mp + 2) / 5 + d - 1
  let doe := yoe * 365 + yoe / 4 - yoe / 100 + doy
  era * 146097 + doe - 719468

/-- Split a character list on `'-'`. -/
def splitDashes : List Char → List (List Char)
  | [] => [[]]
  | c :: cs =>
    let r := splitDashes cs
    if c = '-' then [] :: r
    else match r with
      | [] => [[c]]
      | g :: gs => (c :: g) :: gs

/-- Decimal digits to a natural number. -/
def digitsToNat (cs : List Char) : ℕ :=
  cs.foldl (fun acc c => acc * 10 + (c.toNat - 48)) 0

/-- `datetime.strptime(s, '%Y-%m-%d')` as a day number: three dash-separated
digit groups (up to 4/2/2 digits), year 1–9999, month 1–12, day within the
month (leap years respected); `none` models the `ValueError` raised on any
other string. -/
def parseISODate (s : String) : Option ℤ :=
  match splitDashes s.data with
  | [ys, ms, ds] =>
    if ys ≠ [] ∧ ys.all Char.isDigit ∧ ys.length ≤ 4 ∧
       ms ≠ [] ∧ ms.all Char.isDigit ∧ ms.length ≤ 2 ∧
       ds ≠ [] ∧ ds.all Char.isDigit ∧ ds.length ≤ 2 then
      let y := digitsToNat ys
      let m := digitsToNat ms
      let d := digitsToNat ds
      if 1 ≤ y ∧ y ≤ 9999 ∧ 1 ≤ m ∧ m ≤ 12 ∧ 1 ≤ d ∧ d ≤ daysInMonth y m then
        some (daysFromCivil y m d)
      else none
    else none
  | _ => none

/-- `strptime` applied to a Json value: raises (`TypeError`) on a non-string
and (`ValueError`) on a malformed date string. -/
def parseDateJ : Json → Except Unit ℤ
  | .str s =>
    match parseISODate s with
    | some d => .ok d
    | none => .error ()
  | _ => .error ()

/-- The growth-percentage expression of `_calculate_current_metrics`:
`(current − base)/base × 100` with the non-positive-baseline guard giving
0 (this also guards division by zero). -/
def growthPct (current base : ℚ) : ℚ :=
  if 0 < base then (current - base) / base * 100 else 0

/-- Result of `DataAggregatorService._calculate_current_metrics`. -/
structure CurrentMetrics where
  price : ℤ
  growth1y : ℚ
  growth5y : ℚ
  growthTotal : ℚ

/-- One baseline-search loop of `_calculate_current_metrics`: walk the series
from the earliest point, parsing each date (a parse failure raises, exactly
as in the source), and return the suburb value of the first point whose date
is on/after `cutoff` and whose suburb value is positive; `none` when no point
qualifies. -/
def findBaseline (cutoff : ℤ) : List PricePoint → Except Unit (Option ℚ)
  | [] => .ok none
  | p :: ps => do
    let d ← parseDateJ p.date
    if cutoff ≤ d ∧ 0 < p.suburb then return (some p.suburb)
    findBaseline cutoff ps

/-- `DataAggregatorService._calculate_current_metrics`: zero metrics on an
empty series; otherwise current price is the last point's suburb value,
1-year/5-year baselines come from `findBaseline` with cutoffs 365 and 1825
days before the last point's date (both defaulting to the current price),
total growth baseline is the first point's suburb value when positive (else
the current price), and each growth is `(current − base)/base × 100` rounded
to 2 decimals with the non-positive-baseline guard giving 0. -/
def calculate_current_metrics : List PricePoint → Except Unit CurrentMetrics
  | [] => .ok ⟨0, 0, 0, 0⟩
  | p :: ps => do
    let s := p :: ps
    let lastP := s.getLastD p
    let currentPrice := lastP.suburb
    let currentDate ← parseDateJ lastP.date
    let oneYearAgo := currentDate - 365
    let fiveYearsAgo := currentDate - 1825
    let b1 ← findBaseline oneYearAgo s
    let b5 ← findBaseline fiveYearsAgo s
    let price1y := b1.getD currentPrice
    let price5y := b5.getD currentPrice
    let priceEarliest := if 0 < p.suburb then p.suburb else currentPrice
    return ⟨pyTrunc currentPrice,
      pyRound (growthPct currentPrice price1y) 2,
      pyRound (growthPct currentPrice price5y) 2,
      pyRound (growthPct currentPrice priceEarliest) 2⟩

/-- The claim's reading of the volatility function: population coefficient of
variation (population standard deviation over the mean) with the same guards.
Stated from the claim's words, to be compared against the source function. -/
noncomputable def claimPopulationCV (prices : List ℚ) : ℝ :=
  if prices.length < 2 then 0
  else if meanQ prices = 0 then 0
  else Real.sqrt (popVarQ prices) / (meanQ prices : ℝ)

/-- The amended reading: sample coefficient of variation, here via the
expanded variance formula `(n·Σx² − (Σx)²) / (n(n−1))`, with the same
guards. -/
noncomputable def sampleCoeffVariation (prices : List ℚ) : ℝ :=
  if prices.length < 2 then 0
  else if meanQ prices = 0 then 0
  else
    Real.sqrt ((((prices.length : ℚ) * (prices.map (fun x => x ^ 2)).sum
      - prices.sum ^ 2) / ((prices.length : ℚ) * ((prices.length : ℚ) - 1)) : ℚ))
      / (meanQ prices : ℝ)

/-! ### Series extraction (`DataAggregatorService._extract_price_series`) -/

/-- Python `iter(x)` as a list: a list iterates its elements, a dict its keys,
a string its characters; other types raise `TypeError`. -/
def pyIterE : Json → Except Unit (List Json)
  | .arr xs => .ok xs
  | .obj kvs => .ok (kvs.map (fun kv => .str kv.1))
  | .str s => .ok (s.data.map (fun c => .str ⟨[c]⟩))
  | _ => .error ()

/-- Python `len(x)`; raises on types without a length. -/
def pyLen : Json → Except Unit ℕ
  | .arr xs => .ok xs.length
  | .obj kvs => .ok kvs.length
  | .str s => .ok s.data.length
  | _ => .error ()

/-- Simple decimal literal (optional sign, digits, optional fraction), the
only numeric-string shape `float()` receives in this system; other strings
(exponent forms etc. never occur here) are treated as unparsable. -/
def parseDecimal (cs : List Char) : Option ℚ :=
  let core : List Char → Option ℚ := fun l =>
    match l.splitOn '.' with
    | [ip] => if ip ≠ [] ∧ ip.all Char.isDigit then some (digitsToNat ip) else none
    | [ip, fp] =>
      if ip ≠ [] ∧ ip.all Char.isDigit ∧ fp ≠ [] ∧ fp.all Char.isDigit then
        some ((digitsToNat ip : ℚ) + (digitsToNat fp : ℚ) / (10 ^ fp.length : ℚ))
      else none
    | _ => none
  match cs with
  | '-' :: rest => (core rest).map (fun q => -q)
  | '+' :: rest => core rest
  | _ => core cs

/-- Python `float(x)`: numbers pass through, booleans coerce to 0/1, numeric
strings parse; anything else raises. -/
def pyFloat : Json → Except Unit ℚ
  | .num q => .ok q
  | .bool b => .ok (if b then 1 else 0)
  | .str s =>
    match parseDecimal s.data with
    | some q => .ok q
    | none => .error ()
  | _ => .error ()

/-- Whether a Json value can be a Python dict key (hashable). -/
def hashableJ : Json → Bool
  | .arr _ => false
  | .obj _ => false
  | _ => true

/-- Python `==` between two hashable values (dict-key equality): numbers and
booleans compare numerically, strings as strings; values of unrelated types
are unequal. -/
def pyKeyEq : Json → Json → Bool
  | .str a, .str b => a == b
  | .num a, .num b => decide (a = b)
  | .num a, .bool b => decide (a = if b then 1 else 0)
  | .bool a, .num b => decide ((if a then (1 : ℚ) else 0) = b)
  | .bool a, .bool b => a == b
  | .null, .null => true
  | _, _ => false

/-- Python `==` between a Json value and a string literal. -/
def pyEqJStr (j : Json) (s : String) : Bool :=
  match j with
  | .str t => t == s
  | _ => false

/-- Python `<` between two sort keys: numeric for numbers/booleans,
lexicographic for strings; mixed or unordered types raise `TypeError`. -/
def pyLtJ : Json → Json → Except Unit Bool
  | .num x, .num y => .ok (decide (x < y))
  | .num x, .bool b => .ok (decide (x < if b then 1 else 0))
  | .bool a, .num y => .ok (decide ((if a then (1 : ℚ) else 0) < y))
  | .bool a, .bool b => .ok (decide ((if a then (1 : ℚ) else 0) < if b then 1 else 0))
  | .str s, .str t => .ok (decide (s.data < t.data))
  | _, _ => .error ()

/-- The grouping loop of `_extract_price_series` over the raw items, with the
accumulated `price_by_date` entries in insertion order: skip non-dicts, skip
records that are not `sell_price`/`house`, skip falsy dates, coerce the three
prices with `float(...)` (`item.get('cr', {}).get('value', 0)` raises when
`cr`/`sa3` is present but not a dict), and keep only the first record seen
per date. -/
def extractFold : List Json → List PricePoint → Except Unit (List PricePoint)
  | [], acc => .ok acc
  | item :: rest, acc =>
    match item with
    | .obj kvs => do
      let metricV := (kvs.lookup "metric").getD .null
      let propV := (kvs.lookup "property_type").getD .null
      if ¬ pyEqJStr metricV "sell_price" ∨ ¬ pyEqJStr propV "house" then
        extractFold rest acc
      else
        let dateV := (kvs.lookup "date").getD (.str "")
        if ¬ dateV.truthy then extractFold rest acc
        else do
          let suburbPrice ← pyFloat ((kvs.lookup "value").getD (.num 0))
          let crPrice ← pyFloat (← pyDictGet ((kvs.lookup "cr").getD (.obj [])) "value" (.num 0))
          let sa3Price ← pyFloat (← pyDictGet ((kvs.lookup "sa3").getD (.obj [])) "value" (.num 0))
          if ¬ hashableJ dateV then .error ()
          else if acc.any (fun q => pyKeyEq q.date dateV) then extractFold rest acc
          else extractFold rest (acc ++ [⟨dateV, suburbPrice, crPrice, sa3Price⟩])
    | _ => extractFold rest acc

/-- Stable ordered insertion by date for the final
`sorted(price_by_date.values(), key=lambda x: x['date'])`: an element moves
past `b` only when `b`'s key is strictly smaller, so equal keys keep their
relative order; key comparisons can raise on mixed key types. -/
def insertPointE (a : PricePoint) : List PricePoint → Except Unit (List PricePoint)
  | [] => .ok [a]
  | b :: l => do
    if ← pyLtJ b.date a.date then
      let r ← insertPointE a l
      return b :: r
    else
      return a :: b :: l

/-- Stable insertion sort (Python `sorted` is a stable sort; with the unique
keys produced by the grouping the order is uniquely determined anyway). -/
def sortPointsE : List PricePoint → Except Unit (List PricePoint)
  | [] => .ok []
  | a :: l => do
    let r ← sortPointsE l
    insertPointE a r

/-- `DataAggregatorService._extract_price_series`: iterate the raw results,
group by date keeping the first record per date, and sort ascending by the
date value. -/
def extract_price_series (results : Json) : Except Unit (List PricePoint) := do
  let items ← pyIterE results
  let grouped ← extractFold items []
  sortPointsE grouped

/-- A well-formed raw market record, as the claims quantify over them:
string metric / property type / date, numeric value and regional values. -/
structure MarketRec where
  metric : String
  property_type : String
  date : String
  value : ℚ
  cr : ℚ
  sa3 : ℚ

/-- The Json dict shape of a raw market record. -/
def recJson (r : MarketRec) : Json :=
  .obj [("metric", .str r.metric), ("property_type", .str r.property_type),
        ("date", .str r.date), ("value", .num r.value),
        ("cr", .obj [("value", .num r.cr)]), ("sa3", .obj [("value", .num r.sa3)])]

/-- A record-level extracted point (string date). -/
structure MarketPt where
  date : String
  suburb : ℚ
  cr : ℚ
  sa3 : ℚ

/-- The point a kept record contributes. -/
def recPoint (r : MarketRec) : MarketPt := ⟨r.date, r.value, r.cr, r.sa3⟩

/-- A record-level point as the Json pipeline's `PricePoint`. -/
def ptJson (q : MarketPt) : PricePoint := ⟨.str q.date, q.suburb, q.cr, q.sa3⟩

/-- Whether `_extract_price_series` keeps a record: metric `sell_price`,
property type `house`, non-empty date. -/
def keeps (r : MarketRec) : Bool :=
  r.metric == "sell_price" && r.property_type == "house" && r.date != ""

/-- Record-level grouping: first record seen per date wins. -/
def dedupFold : List MarketRec → List MarketPt → List MarketPt
  | [], acc => acc
  | r :: rest, acc =>
    if keeps r then
      if acc.any (fun q => q.date == r.date) then dedupFold rest acc
      else dedupFold rest (acc ++ [recPoint r])
    else dedupFold rest acc

/-- Ascending date order on record-level points. -/
def ptLe (a b : MarketPt) : Prop := a.date.data ≤ b.date.data

instance : DecidableRel ptLe := fun a b =>
  inferInstanceAs (Decidable (a.date.data ≤ b.date.data))

instance : IsTotal MarketPt ptLe := ⟨fun a b => le_total a.date.data b.date.data⟩

instance : IsTrans MarketPt ptLe := ⟨fun _ _ _ h1 h2 => le_trans h1 h2⟩

/-- Record-level extraction: group (first record per date wins), then sort
ascending by date string. -/
def extractR (rs : List MarketRec) : List MarketPt :=
  List.insertionSort ptLe (dedupFold rs [])

/-! ### Canonicalization (per-domain transforms of `data_aggregator.py`)

Each domain's canonicalization is the body of the corresponding `get_X`
method applied to the unwrapped payload: classify the payload (already
canonical ⇒ pass through unchanged) or transform the raw shape. -/

/-- Python numeric coercion inside arithmetic (`x * 100`, `x + y` …):
numbers pass, booleans coerce to 0/1, everything else raises. -/
def pyArith : Json → Except Unit ℚ
  | .num q => .ok q
  | .bool b => .ok (if b then 1 else 0)
  | _ => .error ()

/-- Python `x[:n]` for the slices taken by the transforms: lists and strings
slice, other types raise. -/
def pySliceList (j : Json) (n : ℕ) : Except Unit Json :=
  match j with
  | .arr xs => .ok (.arr (xs.take n))
  | .str s => .ok (.str ⟨s.data.take n⟩)
  | _ => .error ()

/-- Python `+` (as used for `boys + girls`): numeric addition with boolean
coercion, string and list concatenation; anything else raises. -/
def pyAdd : Json → Json → Except Unit Json
  | .num a, .num b => .ok (.num (a + b))
  | .num a, .bool b => .ok (.num (a + if b then 1 else 0))
  | .bool a, .num b => .ok (.num ((if a then (1 : ℚ) else 0) + b))
  | .bool a, .bool b => .ok (.num ((if a then (1 : ℚ) else 0) + if b then 1 else 0))
  | .str a, .str b => .ok (.str (a ++ b))
  | .arr a, .arr b => .ok (.arr (a ++ b))
  | _, _ => .error ()

/-- Python dict assignment `d[k] = v`: replace in place (keeping the key's
original position) or append. -/
def updateAssoc : List (Json × Json) → Json → Json → List (Json × Json)
  | [], k, v => [(k, v)]
  | (k', v') :: t, k, v =>
    if pyKeyEq k' k then (k', v) :: t else (k', v') :: updateAssoc t k v

/-- Python `d[name] = d.get(name, 0) + q` on a string-keyed accumulator. -/
def addAssoc : List (String × ℚ) → String → ℚ → List (String × ℚ)
  | [], name, q => [(name, q)]
  | (n, v) :: t, name, q =>
    if n == name then (n, v + q) :: t else (n, v) :: addAssoc t name q

/-- Descending order on counted categories (`sorted(..., key=lambda x: x[1],
reverse=True)`); non-strict so that insertion sort is stable. -/
def countDescRel (a b : Json × ℕ) : Prop := b.2 ≤ a.2

instance : DecidableRel countDescRel := fun a b => Nat.decLe b.2 a.2

/-- Descending order on (name, percentage) rows
(`list.sort(key=lambda x: x['percentage'], reverse=True)`). -/
def pctDescRel (a b : String × ℚ) : Prop := b.2 ≤ a.2

instance : DecidableRel pctDescRel := fun a b =>
  inferInstanceAs (Decidable (b.2 ≤ a.2))

/-! #### Demographics (`_transform_demographics_data`, `get_demographics`) -/

/-- The `age_brackets` loop: group entries with gender `persons` by their age
value in a dict (later entries for the same age overwrite the stored entry in
place); each entry is `{'age', 'population': 0, 'percentage':
round(proportion*100, 1)}`. -/
def ageFold : List Json → List (Json × Json) → Except Unit (List (Json × Json))
  | [], groups => .ok groups
  | b :: rest, groups => do
    let g ← pyDictGet b "gender" .null
    if pyEqJStr g "persons" then
      let age ← pyDictGet b "age" (.str "")
      let prop ← pyDictGet b "proportion" (.num 0)
      let pn ← pyArith prop
      if ¬ hashableJ age then .error ()
      else
        ageFold rest (updateAssoc groups age
          (.obj [("age", age), ("population", .num 0),
                 ("percentage", .num (pyRound (pn * 100) 1))]))
    else ageFold rest groups

/-- The `ageDistribution` half of the demographics transform
(`list(age_groups.values())`, empty when there is no `age_brackets` key). -/
def demAgeDist (raw : Json) : Except Unit (List Json) := do
  if ← pyIn "age_brackets" raw then
    let brackets ← pyGetItem raw "age_brackets"
    let items ← pyIterE brackets
    let groups ← ageFold items []
    return groups.map (fun g => g.2)
  else
    return []

/-- The legacy `ethnicities` branch: map the first 10 entries to
`{'name': eth.get('ethnicity', eth.get('name', '')),
'percentage': round(proportion*100, 1)}`. -/
def ethLegacyMap : List Json → Except Unit (List Json)
  | [] => .ok []
  | e :: rest => do
    let nameDefault ← pyDictGet e "name" (.str "")
    let nm ← pyDictGet e "ethnicity" nameDefault
    let pctDefault ← pyDictGet e "percentage" (.num 0)
    let prop ← pyDictGet e "proportion" pctDefault
    let pn ← pyArith prop
    let tail ← ethLegacyMap rest
    return (Json.obj [("name", nm), ("percentage", .num (pyRound (pn * 100) 1))]) :: tail

/-- Add one sub-area's `ethnicity` dict into the running totals. -/
def ethAddAll : List (String × Json) → List (String × ℚ) → Except Unit (List (String × ℚ))
  | [], totals => .ok totals
  | (name, prop) :: t, totals => do
    let pn ← pyArith prop
    ethAddAll t (addAssoc totals name pn)

/-- The `results` accumulation loop: count the sub-area records carrying an
`ethnicity` dict and sum each named ethnicity's proportion. -/
def ethAccumulate : List Json → List (String × ℚ) → ℕ →
    Except Unit (List (String × ℚ) × ℕ)
  | [], totals, count => .ok (totals, count)
  | res :: rest, totals, count => do
    if ← pyIn "ethnicity" res then
      let v ← pyGetItem res "ethnicity"
      match v with
      | .obj kvs => do
        let totals' ← ethAddAll kvs totals
        ethAccumulate rest totals' (count + 1)
      | _ => ethAccumulate rest totals count
    else ethAccumulate rest totals count

/-- The `ethnicity` half of the demographics transform: the legacy
`ethnicities` branch, else the `results` averaging branch (average, × 100,
round to 1 decimal, sort descending by percentage, keep 10), else empty. -/
def demEthnicity (raw : Json) : Except Unit (List Json) := do
  if ← pyIn "ethnicities" raw then
    let eths ← pyGetItem raw "ethnicities"
    let sliced ← pySliceList eths 10
    let items ← pyIterE sliced
    ethLegacyMap items
  else if ← pyIn "results" raw then
    let results ← pyGetItem raw "results"
    let items ← pyIterE results
    let tc ← ethAccumulate items [] 0
    if 0 < tc.2 then
      let rows := tc.1.map (fun kv => (kv.1, pyRound (kv.2 / (tc.2 : ℚ) * 100) 1))
      let sortedRows := List.insertionSort pctDescRel rows
      return (sortedRows.take 10).map
        (fun kv => Json.obj [("name", .str kv.1), ("percentage", .num kv.2)])
    else
      return []
  else
    return []

/-- `DataAggregatorService._transform_demographics_data`. -/
def transformDemographics (raw : Json) : Except Unit Json :=
  if ¬ raw.truthy then pure (.obj []) else do
    let ageDist ← demAgeDist raw
    let eth ← demEthnicity raw
    pure (.obj [("ageDistribution", .arr ageDist), ("ethnicity", .arr eth)])

/-- The demographics canonicalization (body of `get_demographics` on the
unwrapped payload): pass through payloads already carrying
`ageDistribution`, transform the rest. -/
def canonDemographics (raw : Json) : Except Unit Json := do
  let b ← pyIn "ageDistribution" raw
  if b then pure raw else transformDemographics raw

/-! #### Amenities (`_transform_amenities_data`, `get_amenities`) -/

/-- `category_counts[category] = category_counts.get(category, 0) + 1`
(in-place increment keeping insertion order). -/
def countInc : List (Json × ℕ) → Json → List (Json × ℕ)
  | [], cat => [(cat, 1)]
  | (c, n) :: t, cat =>
    if pyKeyEq c cat then (c, n + 1) :: t else (c, n) :: countInc t cat

/-- The category tally loop (`category_counts`), keyed by each item's
`category` value (default `'Other'`) in insertion order. -/
def countCategories : List Json → List (Json × ℕ) → Except Unit (List (Json × ℕ))
  | [], counts => .ok counts
  | it :: rest, counts => do
    let cat ← pyDictGet it "category" (.str "Other")
    if ¬ hashableJ cat then .error ()
    else countCategories rest (countInc counts cat)

/-- `DataAggregatorService._transform_amenities_data`. -/
def transformAmenities (raw : Json) : Except Unit Json :=
  if ¬ raw.truthy then pure (.obj [("categories", .arr []), ("total", .num 0)]) else do
    let b ← pyIn "results" raw
    if b then do
      let results ← pyGetItem raw "results"
      let items ← pyIterE results
      let counts ← countCategories items []
      let total ← pyLen results
      let sortedCounts := List.insertionSort countDescRel counts
      pure (.obj [("categories", .arr (sortedCounts.map (fun kv =>
          Json.obj [("name", kv.1), ("count", .num kv.2),
            ("percentage", .num (pyRound
              (if 0 < total then (kv.2 : ℚ) / (total : ℚ) * 100 else 0) 1))]))),
        ("total", .num total)])
    else
      pure raw

/-- The amenities canonicalization (body of `get_amenities` on the unwrapped
payload): pass through payloads whose `categories` is a list that is empty or
whose first entry has a `name` key; transform the rest. -/
def canonAmenities (raw : Json) : Except Unit Json := do
  let b ← pyIn "categories" raw
  if b then do
    let cats ← pyGetItem raw "categories"
    match cats with
    | .arr [] => pure raw
    | .arr (c :: _) => do
      let hn ← pyIn "name" c
      if hn then pure raw else transformAmenities raw
    | _ => transformAmenities raw
  else transformAmenities raw

/-! #### Schools (`_transform_schools_data`, `get_schools`) -/

/-- The optional naplan fields of a school entry (`'naplan' in item`): the
raw score plus its 0–5 rescaling `round(naplan * 5, 1)`. -/
def schoolNaplanPart (kvs : List (String × Json)) : Except Unit (List (String × Json)) :=
  if kvs.any (fun kv => kv.1 == "naplan") then do
    let nq ← pyArith ((kvs.lookup "naplan").getD (.num 0))
    pure [("naplanScore", ((kvs.lookup "naplan").getD .null)),
          ("rating", Json.num (pyRound (nq * 5) 1))]
  else pure []

/-- The optional students block of a school entry (`if boys or girls`), with
`total = boys + girls`. -/
def schoolStudentsPart (kvs : List (String × Json)) :
    Except Unit (List (String × Json)) :=
  let boys := (kvs.lookup "boys").getD (.num 0)
  let girls := (kvs.lookup "girls").getD (.num 0)
  if boys.truthy || girls.truthy then do
    let tot ← pyAdd boys girls
    pure [("students", Json.obj [("boys", boys), ("girls", girls), ("total", tot)])]
  else pure []

/-- One canonical school entry built from a raw record dict: the three
always-present fields first, then each optional field only when the source
key is present, then the student counts. -/
def schoolEntry (kvs : List (String × Json)) : Except Unit Json := do
  let naplanPart ← schoolNaplanPart kvs
  let studentsPart ← schoolStudentsPart kvs
  pure (.obj ([("name", (kvs.lookup "name").getD (.str "")),
     ("type", (kvs.lookup "school_level_type").getD (.str "Unknown")),
     ("sector", (kvs.lookup "school_sector_type").getD (.str "Unknown"))]
    ++ naplanPart
    ++ (if kvs.any (fun kv => kv.1 == "naplan_rank") then
        [("naplanRank", (kvs.lookup "naplan_rank").getD .null)] else [])
    ++ (if kvs.any (fun kv => kv.1 == "socioeconomic") then
        [("socioeconomicScore", (kvs.lookup "socioeconomic").getD .null)] else [])
    ++ (if kvs.any (fun kv => kv.1 == "socioeconomic_rank") then
        [("socioeconomicRank", (kvs.lookup "socioeconomic_rank").getD .null)] else [])
    ++ (if kvs.any (fun kv => kv.1 == "attendance_rate") then
        [("attendanceRate", (kvs.lookup "attendance_rate").getD .null)] else [])
    ++ studentsPart))

/-- The schools mapping loop: skip non-dicts, map the rest. -/
def schoolsMap : List Json → Except Unit (List Json)
  | [] => .ok []
  | it :: rest =>
    match it with
    | .obj kvs => do
      let entry ← schoolEntry kvs
      let tail ← schoolsMap rest
      return entry :: tail
    | _ => schoolsMap rest

/-- `DataAggregatorService._transform_schools_data`. -/
def transformSchools (raw : Json) : Except Unit Json :=
  if ¬ raw.truthy then pure (.obj [("schools", .arr []), ("total", .num 0)]) else do
    let b ← pyIn "results" raw
    if b then do
      let results ← pyGetItem raw "results"
      let items ← pyIterE results
      let schools ← schoolsMap items
      pure (.obj [("schools", .arr schools), ("total", .num schools.length)])
    else
      pure raw

/-- The schools canonicalization (body of `get_schools` on the unwrapped
payload). -/
def canonSchools (raw : Json) : Except Unit Json := do
  let b ← pyIn "schools" raw
  if b then do
    let schools ← pyGetItem raw "schools"
    match schools with
    | .arr [] => pure raw
    | .arr (s :: _) => do
      let hn ← pyIn "name" s
      if hn then pure raw else transformSchools raw
    | _ => transformSchools raw
  else transformSchools raw

/-! #### Developments (`_transform_developments_data`, `get_developments`) -/

/-- The developments mapping loop over `enumerate(results[:50])`: non-dict
items are skipped but still consume their index; each dict maps with the
fixed key-preference order of the source. -/
def devsMap : List Json → ℕ → List Json
  | [], _ => []
  | it :: rest, idx =>
    match it with
    | .obj kvs =>
      (Json.obj
        [("id", (kvs.lookup "id").getD (.str ("dev-" ++ toString idx))),
         ("name", (kvs.lookup "description").getD
            ((kvs.lookup "name").getD (.str "Development Application"))),
         ("type", (kvs.lookup "category").getD
            ((kvs.lookup "development_type").getD (.str "Residential"))),
         ("status", (kvs.lookup "status").getD (.str "Unknown")),
         ("units", (kvs.lookup "units").getD (.num 0)),
         ("address", (kvs.lookup "area_name").getD
            ((kvs.lookup "address").getD (.str ""))),
         ("applicant", (kvs.lookup "applicant").getD (.str "Unknown")),
         ("submittedDate", (kvs.lookup "date").getD
            ((kvs.lookup "lodgement_date").getD
              ((kvs.lookup "submitted_date").getD (.str ""))))])
        :: devsMap rest (idx + 1)
    | _ => devsMap rest (idx + 1)

/-- `DataAggregatorService._transform_developments_data`. -/
def transformDevelopments (raw : Json) : Except Unit Json :=
  if ¬ raw.truthy then
    pure (.obj [("developments", .arr []), ("total", .num 0), ("showing", .num 0)])
  else do
    let b ← pyIn "results" raw
    if b then do
      let results ← pyGetItem raw "results"
      let sliced ← pySliceList results 50
      let items ← pyIterE sliced
      let devs := devsMap items 0
      let total ← pyLen results
      pure (.obj [("developments", .arr devs), ("total", .num total),
        ("showing", .num devs.length)])
    else
      pure raw

/-- The developments canonicalization (body of `get_developments` on the
unwrapped payload). -/
def canonDevelopments (raw : Json) : Except Unit Json := do
  let b ← pyIn "developments" raw
  if b then do
    let devs ← pyGetItem raw "developments"
    match devs with
    | .arr [] => pure raw
    | .arr (d :: _) => do
      let hn ← pyIn "id" d
      if hn then pure raw else transformDevelopments raw
    | _ => transformDevelopments raw
  else transformDevelopments raw

/-! #### Market trends (`_transform_market_trends_data`, `get_market_trends`) -/

/-- The extracted point as the dict `_extract_price_series` builds
(`{'date', 'suburb', 'cr', 'sa3'}`). -/
def pointJson (p : PricePoint) : Json :=
  .obj [("date", p.date), ("suburb", .num p.suburb),
        ("cr", .num p.cr), ("sa3", .num p.sa3)]

/-- One side of the regional-comparison dict as Json. -/
def regionJson (e : RegionEntry) : Json :=
  .obj [("price", .num e.price), ("difference", .num e.difference),
        ("status", .str e.status)]

/-- The default returned when the payload is falsy or has no `results`
(`_transform_market_trends_data`, first early return — note: no
`rentHistory` key). -/
def mtDefault1 : Json :=
  .obj [("priceHistory", .arr []), ("currentPrice", .num 0),
    ("priceGrowth", .obj [("1year", .num 0), ("5year", .num 0), ("total", .num 0)]),
    ("regionalComparison", .obj
      [("cr", .obj [("price", .num 0), ("difference", .num 0), ("status", .str "below")]),
       ("sa3", .obj [("price", .num 0), ("difference", .num 0), ("status", .str "below")])]),
    ("investmentScore", .num 0),
    ("analytics", .obj [("volatility", .str "low"), ("trend", .str "stable"),
      ("insights", .arr [])])]

/-- The default returned when extraction yields no points (second early
return — this one does carry `rentHistory`). -/
def mtDefault2 : Json :=
  .obj [("priceHistory", .arr []), ("rentHistory", .arr []), ("currentPrice", .num 0),
    ("priceGrowth", .obj [("1year", .num 0), ("5year", .num 0), ("total", .num 0)]),
    ("regionalComparison", .obj
      [("cr", .obj [("price", .num 0), ("difference", .num 0), ("status", .str "below")]),
       ("sa3", .obj [("price", .num 0), ("difference", .num 0), ("status", .str "below")])]),
    ("investmentScore", .num 0),
    ("analytics", .obj [("volatility", .str "low"), ("trend", .str "stable"),
      ("insights", .arr [])])]

/-- `DataAggregatorService._transform_market_trends_data`: unwrap the nested
`results` list when present, extract the price series, and either fall back
to a default or assemble the full canonical market-trends payload from the
analytics. -/
def transformMarketTrends (raw : Json) : Except Unit Json :=
  if ¬ raw.truthy then pure mtDefault1 else do
    let b ← pyIn "results" raw
    if b then
    do
      let results0 ← pyGetItem raw "results"
      let results :=
        match results0 with
        | .arr (Json.arr ys :: _) => Json.arr ys
        | _ => results0
      let ph ← extract_price_series results
      if ph.isEmpty then pure mtDefault2
      else do
        let cur ← calculate_current_metrics ph
        let comp := calculate_regional_comparison ph
        let inv := calculate_investment_score ph comp
        pure (.obj [
          ("priceHistory", .arr (ph.map pointJson)),
          ("rentHistory", .arr []),
          ("currentPrice", .num cur.price),
          ("priceGrowth", .obj [("1year", .num cur.growth1y),
            ("5year", .num cur.growth5y), ("total", .num cur.growthTotal)]),
          ("regionalComparison", .obj [("cr", regionJson comp.cr),
            ("sa3", regionJson comp.sa3)]),
          ("investmentScore", .num inv.score),
          ("analytics", .obj [("volatility", .str inv.volatilityBucket),
            ("trend", .str inv.trend),
            ("insights", .arr (inv.insights.map .str))])])
    else pure mtDefault1

/-- The market-trends canonicalization (body of `get_market_trends` on the
unwrapped payload): pass through payloads already carrying `priceHistory`,
transform the rest. -/
def canonMarketTrends (raw : Json) : Except Unit Json := do
  let b ← pyIn "priceHistory" raw
  if b then pure raw else transformMarketTrends raw

/-- C1.  The claim says every domain operation of the fallback coordinator
never raises.  This fails for `get_street_rankings`: its second (shadowing)
definition calls the API repository with no `try`/`except`, so when the API
adapter raises, the composite call itself raises instead of returning the
"no data" result.  This theorem evaluates the model at the failing input:
an API adapter that raises and a file adapter that returns `None`. -/
theorem c1_street_rankings_propagates_exception :
    compositeCall .streetRankings .raises (.returns .null) = .raises ∧
    ∀ v : Json, compositeCall .streetRankings .raises (.returns .null) ≠ .returns v := by
  refine ⟨rfl, fun v h => ?_⟩
  exact CallOutcome.noConfusion h

/-- C2.  For every domain operation of the composite repository and all
adapter behaviours: if the API adapter returns a truthy (non-empty) result,
that result is returned and the file adapter is not called (0 file calls);
and in every case the operation makes at most one API call and at most one
file call. -/
theorem c2_fallback_ordering (op : DomainOp) (api fileO : CallOutcome) (v : Json) :
    (api = .returns v → v.truthy = true →
      (compositeTrace op api fileO).1 = .returns v ∧ (compositeTrace op api fileO).2.2 = 0) ∧
    (compositeTrace op api fileO).2.1 ≤ 1 ∧ (compositeTrace op api fileO).2.2 ≤ 1 := by
  refine ⟨fun hapi ht => ?_, ?_⟩
  · subst hapi
    cases op <;>
      simp [compositeTrace, tryApiThenFileTrace, getStreetRankingsTrace, ht]
  · cases op <;> cases api <;> cases fileO <;>
      simp only [compositeTrace, tryApiThenFileTrace, getStreetRankingsTrace, tryFileFallback] <;>
      (repeat' split) <;> simp_all

/-- Witness for C2 at a concrete input: the API adapter returns the truthy
dict `{"k": None}`, the file adapter would return `None`; the composite
`get_demographics` returns the API result and makes no file call. -/
theorem c2_fallback_ordering_witness :
    (compositeTrace .demographics (.returns (.obj [("k", .null)])) (.returns .null)).1
        = .returns (.obj [("k", .null)]) ∧
    (compositeTrace .demographics (.returns (.obj [("k", .null)])) (.returns .null)).2.2 = 0 :=
  (c2_fallback_ordering .demographics (.returns (.obj [("k", .null)]))
    (.returns .null) (.obj [("k", .null)])).1 rfl rfl

/-- If a string-keyed association list has no entry for `a`, then no key of it
equals `a`. -/
theorem lookup_none_any_false {l : List (String × Json)} {a : String}
    (h : l.lookup a = none) : l.any (fun kv => kv.1 == a) = false := by
  induction l with
  | nil => rfl
  | cons p t ih =>
    obtain ⟨k, v⟩ := p
    cases hak : (a == k) with
    | true => exfalso; simp [List.lookup, hak] at h
    | false =>
      have h' : t.lookup a = none := by simpa [List.lookup, hak] using h
      have hka : (k == a) = false := by
        rw [beq_eq_false_iff_ne] at hak ⊢
        exact fun hkeq => hak hkeq.symm
      simp [List.any_cons, hka, ih h']

/-- Core of the amended C5: on a non-empty snapshot dict whose keys avoid the
requested identifier, the shared fallback body substitutes the value of the
first entry, keyed under the requested identifier. -/
theorem fileKeyedFallback_substitutes
    (k : String) (v : Json) (rest : List (String × Json)) (id : String) (e : Json)
    (h : (((k, v) :: rest).lookup id) = none) :
    fileKeyedFallback (.readable (.obj ((k, v) :: rest))) id e = .ok (.obj [(id, v)]) := by
  have hany := lookup_none_any_false h
  simp [fileKeyedFallback, loadFile, Json.truthy, pyIn, pyGetItem, pyFirstKey, hany,
    List.lookup, Bind.bind, Except.bind, Functor.map, Except.map, Pure.pure, Except.pure]

/-- C5 (amended).  The first-entry substitution holds for the five
file-repository operations that implement it (`get_demographics`,
`get_amenities`, `get_market_trends`, `get_schools`, `get_developments`):
when the loaded snapshot is a non-empty dict without an entry for the
requested identifier, each returns the first entry's data (insertion order)
keyed under the requested identifier.  (The claim's "every domain operation"
fails: see the counterexample for `get_suburb_info`.) -/
theorem c5_first_entry_substitution
    (k : String) (v : Json) (rest : List (String × Json)) (id : String)
    (h : (((k, v) :: rest).lookup id) = none) :
    fileGetDemographics (.readable (.obj ((k, v) :: rest))) id = .ok (.obj [(id, v)]) ∧
    fileGetAmenities (.readable (.obj ((k, v) :: rest))) id = .ok (.obj [(id, v)]) ∧
    fileGetMarketTrends (.readable (.obj ((k, v) :: rest))) id = .ok (.obj [(id, v)]) ∧
    fileGetSchools (.readable (.obj ((k, v) :: rest))) id = .ok (.obj [(id, v)]) ∧
    fileGetDevelopments (.readable (.obj ((k, v) :: rest))) id = .ok (.obj [(id, v)]) :=
  ⟨fileKeyedFallback_substitutes k v rest id _ h,
   fileKeyedFallback_substitutes k v rest id _ h,
   fileKeyedFallback_substitutes k v rest id _ h,
   fileKeyedFallback_substitutes k v rest id _ h,
   fileKeyedFallback_substitutes k v rest id _ h⟩

/-- Witness for amended C5 at a concrete input: snapshot
`{"melbourne-3000": 1}` queried with `"sydney-2000"`. -/
theorem c5_first_entry_substitution_witness :
    fileGetDemographics (.readable (.obj [("melbourne-3000", .num 1)])) "sydney-2000"
        = .ok (.obj [("sydney-2000", .num 1)]) ∧
    fileGetAmenities (.readable (.obj [("melbourne-3000", .num 1)])) "sydney-2000"
        = .ok (.obj [("sydney-2000", .num 1)]) ∧
    fileGetMarketTrends (.readable (.obj [("melbourne-3000", .num 1)])) "sydney-2000"
        = .ok (.obj [("sydney-2000", .num 1)]) ∧
    fileGetSchools (.readable (.obj [("melbourne-3000", .num 1)])) "sydney-2000"
        = .ok (.obj [("sydney-2000", .num 1)]) ∧
    fileGetDevelopments (.readable (.obj [("melbourne-3000", .num 1)])) "sydney-2000"
        = .ok (.obj [("sydney-2000", .num 1)]) :=
  c5_first_entry_substitution "melbourne-3000" (.num 1) [] "sydney-2000" rfl

/-- C5 counterexample.  The claim quantifies over every domain operation of
the file adapter, but `get_suburb_info` does not substitute: on the non-empty
snapshot `{"melbourne-3000": 1}` and requested identifier `"sydney-2000"` it
returns `None`, not the first entry keyed under the requested identifier. -/
theorem c5_counterexample_suburb_info :
    fileGetSuburbInfo (.readable (.obj [("melbourne-3000", .num 1)])) "sydney-2000" true
        = .ok .null ∧
    (Except.ok Json.null : Except Unit Json)
        ≠ .ok (.obj [("sydney-2000", .num 1)]) :=
  ⟨rfl, fun h => Json.noConfusion (Except.ok.inj h)⟩

/-- C6.  For every domain operation of the file repository: an absent
snapshot file and an unparsable snapshot file produce identical results, and
both coincide with the result on a readable but empty snapshot (`{}`), i.e.
load failures are indistinguishable from "no data". -/
theorem c6_load_failure_equals_no_data :
    (∀ q, fileSearchSuburbs .absent q = fileSearchSuburbs .invalid q ∧
      fileSearchSuburbs .invalid q = fileSearchSuburbs (.readable (.obj [])) q) ∧
    (∀ id g, fileGetSuburbInfo .absent id g = fileGetSuburbInfo .invalid id g ∧
      fileGetSuburbInfo .invalid id g = fileGetSuburbInfo (.readable (.obj [])) id g) ∧
    (∀ id, fileGetSuburbSummary .absent id = fileGetSuburbSummary .invalid id ∧
      fileGetSuburbSummary .invalid id = fileGetSuburbSummary (.readable (.obj [])) id) ∧
    (∀ id, fileGetDemographics .absent id = fileGetDemographics .invalid id ∧
      fileGetDemographics .invalid id = fileGetDemographics (.readable (.obj [])) id) ∧
    (∀ id, fileGetAmenities .absent id = fileGetAmenities .invalid id ∧
      fileGetAmenities .invalid id = fileGetAmenities (.readable (.obj [])) id) ∧
    (∀ id, fileGetMarketTrends .absent id = fileGetMarketTrends .invalid id ∧
      fileGetMarketTrends .invalid id = fileGetMarketTrends (.readable (.obj [])) id) ∧
    (∀ id, fileGetSchools .absent id = fileGetSchools .invalid id ∧
      fileGetSchools .invalid id = fileGetSchools (.readable (.obj [])) id) ∧
    (∀ id, fileGetDevelopments .absent id = fileGetDevelopments .invalid id ∧
      fileGetDevelopments .invalid id = fileGetDevelopments (.readable (.obj [])) id) ∧
    (∀ id m p, fileGetMarketInsights .absent id m p = fileGetMarketInsights .invalid id m p ∧
      fileGetMarketInsights .invalid id m p
        = fileGetMarketInsights (.readable (.obj [])) id m p) ∧
    (∀ id g p, fileGetPocketInsights .absent id g p = fileGetPocketInsights .invalid id g p ∧
      fileGetPocketInsights .invalid id g p
        = fileGetPocketInsights (.readable (.obj [])) id g p) ∧
    (∀ id g p, fileGetStreetInsights .absent id g p = fileGetStreetInsights .invalid id g p ∧
      fileGetStreetInsights .invalid id g p
        = fileGetStreetInsights (.readable (.obj [])) id g p) ∧
    (∀ id g, fileGetRiskFactors .absent id g = fileGetRiskFactors .invalid id g ∧
      fileGetRiskFactors .invalid id g = fileGetRiskFactors (.readable (.obj [])) id g) ∧
    (∀ id g, fileGetSchoolCatchments .absent id g = fileGetSchoolCatchments .invalid id g ∧
      fileGetSchoolCatchments .invalid id g
        = fileGetSchoolCatchments (.readable (.obj [])) id g) ∧
    (∀ id g, fileGetZoning .absent id g = fileGetZoning .invalid id g ∧
      fileGetZoning .invalid id g = fileGetZoning (.readable (.obj [])) id g) ∧
    (∀ id g, fileGetSimilarSuburbs .absent id g = fileGetSimilarSuburbs .invalid id g ∧
      fileGetSimilarSuburbs .invalid id g
        = fileGetSimilarSuburbs (.readable (.obj [])) id g) ∧
    (∀ st id p, fileGetStreetRankings st id p
        = fileGetStreetRankings (.readable (.obj [])) id p) :=
  ⟨fun _ => ⟨rfl, rfl⟩, fun _ _ => ⟨rfl, rfl⟩, fun _ => ⟨rfl, rfl⟩, fun _ => ⟨rfl, rfl⟩,
   fun _ => ⟨rfl, rfl⟩, fun _ => ⟨rfl, rfl⟩, fun _ => ⟨rfl, rfl⟩, fun _ => ⟨rfl, rfl⟩,
   fun _ _ _ => ⟨rfl, rfl⟩, fun _ _ _ => ⟨rfl, rfl⟩, fun _ _ _ => ⟨rfl, rfl⟩,
   fun _ _ => ⟨rfl, rfl⟩, fun _ _ => ⟨rfl, rfl⟩, fun _ _ => ⟨rfl, rfl⟩,
   fun _ _ => ⟨rfl, rfl⟩, fun _ _ _ => rfl⟩

theorem sum_sq_sub (xs : List ℚ) (t : ℚ) :
    (xs.map (fun x => (x - t) ^ 2)).sum
      = (xs.map (fun x => x ^ 2)).sum - 2 * t * xs.sum + xs.length * t ^ 2 := by
  induction xs with
  | nil => simp
  | cons a l ih =>
    simp only [List.map_cons, List.sum_cons, ih, List.length_cons]
    push_cast
    ring

theorem sampleVarQ_nonneg {xs : List ℚ} (h : ¬ xs.length < 2) : 0 ≤ sampleVarQ xs := by
  unfold sampleVarQ
  apply div_nonneg
  · apply List.sum_nonneg
    intro x hx
    simp only [List.mem_map] at hx
    obtain ⟨a, _, rfl⟩ := hx
    positivity
  · have h2 : 2 ≤ xs.length := le_of_not_lt h
    have : (2 : ℚ) ≤ (xs.length : ℚ) := by exact_mod_cast h2
    linarith

theorem sampleVarQ_alt {xs : List ℚ} (h : ¬ xs.length < 2) :
    sampleVarQ xs = ((xs.length : ℚ) * (xs.map (fun x => x ^ 2)).sum - xs.sum ^ 2)
      / ((xs.length : ℚ) * ((xs.length : ℚ) - 1)) := by
  have h2 : 2 ≤ xs.length := le_of_not_lt h
  have hn : (0 : ℚ) < (xs.length : ℚ) := by
    have : (2 : ℚ) ≤ (xs.length : ℚ) := by exact_mod_cast h2
    linarith
  have hn1 : ((xs.length : ℚ) - 1) ≠ 0 := by
    have : (2 : ℚ) ≤ (xs.length : ℚ) := by exact_mod_cast h2
    intro hh
    linarith
  unfold sampleVarQ meanQ
  rw [sum_sq_sub]
  field_simp
  ring

/-- The boolean square-comparison `volLtB` decides exactly
`calculate_volatility < c`. -/
theorem volLtB_iff (prices : List ℚ) (c : ℚ) :
    volLtB prices c = true ↔ calculate_volatility prices < (c : ℝ) := by
  unfold volLtB calculate_volatility
  by_cases h1 : prices.length < 2
  · simp only [if_pos h1, decide_eq_true_eq]
    exact_mod_cast (Rat.cast_pos (K := ℝ)).symm
  have hV : (0 : ℝ) ≤ ((sampleVarQ prices : ℚ) : ℝ) := by
    exact_mod_cast sampleVarQ_nonneg h1
  by_cases h2 : meanQ prices = 0
  · simp only [if_neg h1, if_pos h2, decide_eq_true_eq]
    exact_mod_cast (Rat.cast_pos (K := ℝ)).symm
  by_cases h3 : 0 < meanQ prices
  · have hM : (0 : ℝ) < ((meanQ prices : ℚ) : ℝ) := by exact_mod_cast h3
    simp only [if_neg h1, if_neg h2, if_pos h3, Bool.and_eq_true, decide_eq_true_eq]
    constructor
    · rintro ⟨hc, hlt⟩
      have hcR : (0 : ℝ) < (c : ℝ) := by exact_mod_cast hc
      rw [div_lt_iff₀ hM]
      rw [Real.sqrt_lt' (mul_pos hcR hM)]
      calc ((sampleVarQ prices : ℚ) : ℝ) < (((c * meanQ prices) ^ 2 : ℚ) : ℝ) := by
            exact_mod_cast hlt
        _ = ((c : ℝ) * (meanQ prices : ℝ)) ^ 2 := by push_cast; ring
    · intro h
      have hs : (0 : ℝ) ≤ Real.sqrt (sampleVarQ prices : ℚ) / (meanQ prices : ℝ) :=
        div_nonneg (Real.sqrt_nonneg _) (le_of_lt hM)
      have hcR : (0 : ℝ) < (c : ℝ) := lt_of_le_of_lt hs h
      have hc : 0 < c := by exact_mod_cast hcR
      refine ⟨hc, ?_⟩
      rw [div_lt_iff₀ hM, Real.sqrt_lt' (mul_pos hcR hM)] at h
      have : ((sampleVarQ prices : ℚ) : ℝ) < (((c * meanQ prices) ^ 2 : ℚ) : ℝ) := by
        calc ((sampleVarQ prices : ℚ) : ℝ) < ((c : ℝ) * (meanQ prices : ℝ)) ^ 2 := h
          _ = (((c * meanQ prices) ^ 2 : ℚ) : ℝ) := by push_cast; ring
      exact_mod_cast this
  · have hMlt : meanQ prices < 0 := lt_of_le_of_ne (le_of_not_lt h3) h2
    have hM : ((meanQ prices : ℚ) : ℝ) < 0 := by exact_mod_cast hMlt
    simp only [if_neg h1, if_neg h2, if_neg h3]
    by_cases hc0 : 0 ≤ c
    · simp only [if_pos hc0, Bool.or_eq_true, decide_eq_true_eq]
      constructor
      · rintro (hc | hv)
        · have hcR : (0 : ℝ) < (c : ℝ) := by exact_mod_cast hc
          have : Real.sqrt (sampleVarQ prices : ℚ) / (meanQ prices : ℝ) ≤ 0 :=
            div_nonpos_of_nonneg_of_nonpos (Real.sqrt_nonneg _) (le_of_lt hM)
          linarith
        · have hvR : (0 : ℝ) < ((sampleVarQ prices : ℚ) : ℝ) := by exact_mod_cast hv
          have hsq : 0 < Real.sqrt (sampleVarQ prices : ℚ) := Real.sqrt_pos.mpr hvR
          have : Real.sqrt (sampleVarQ prices : ℚ) / (meanQ prices : ℝ) < 0 :=
            div_neg_of_pos_of_neg hsq hM
          have hcR : (0 : ℝ) ≤ (c : ℝ) := by exact_mod_cast hc0
          linarith
      · intro h
        by_contra hcon
        push_neg at hcon
        obtain ⟨hc, hv⟩ := hcon
        have hceq : c = 0 := le_antisymm hc hc0
        have hveq : sampleVarQ prices = 0 :=
          le_antisymm hv (sampleVarQ_nonneg h1)
        rw [hceq, hveq] at h
        simp [Real.sqrt_zero] at h
    · push_neg at hc0
      simp only [if_neg (not_le.mpr hc0), decide_eq_true_eq]
      have hcR : (c : ℝ) < 0 := by exact_mod_cast hc0
      have hprod : (0 : ℝ) < (c : ℝ) * (meanQ prices : ℝ) := mul_pos_of_neg_of_neg hcR hM
      constructor
      · intro hlt
        have hltR : (((c * meanQ prices) ^ 2 : ℚ) : ℝ) < ((sampleVarQ prices : ℚ) : ℝ) := by
          exact_mod_cast hlt
        have h2' : ((c : ℝ) * (meanQ prices : ℝ)) ^ 2 < ((sampleVarQ prices : ℚ) : ℝ) := by
          calc ((c : ℝ) * (meanQ prices : ℝ)) ^ 2
              = (((c * meanQ prices) ^ 2 : ℚ) : ℝ) := by push_cast; ring
            _ < _ := hltR
        have := (Real.lt_sqrt (le_of_lt hprod)).mpr h2'
        rw [div_lt_iff_of_neg hM]
        linarith [this]
      · intro h
        rw [div_lt_iff_of_neg hM] at h
        have h2' : (c : ℝ) * (meanQ prices : ℝ) < Real.sqrt (sampleVarQ prices : ℚ) := by
          linarith [h]
        have := (Real.lt_sqrt (le_of_lt hprod)).mp h2'
        have : (((c * meanQ prices) ^ 2 : ℚ) : ℝ) < ((sampleVarQ prices : ℚ) : ℝ) := by
          calc (((c * meanQ prices) ^ 2 : ℚ) : ℝ)
              = ((c : ℝ) * (meanQ prices : ℝ)) ^ 2 := by push_cast; ring
            _ < _ := this
        exact_mod_cast this

/-- The boolean square-comparison `volGtB` decides exactly
`calculate_volatility > c`. -/
theorem volGtB_iff (prices : List ℚ) (c : ℚ) :
    volGtB prices c = true ↔ (c : ℝ) < calculate_volatility prices := by
  unfold volGtB calculate_volatility
  by_cases h1 : prices.length < 2
  · simp only [if_pos h1, decide_eq_true_eq]
    constructor
    · intro h; exact_mod_cast h
    · intro h; exact_mod_cast h
  have hV : (0 : ℝ) ≤ ((sampleVarQ prices : ℚ) : ℝ) := by
    exact_mod_cast sampleVarQ_nonneg h1
  by_cases h2 : meanQ prices = 0
  · simp only [if_neg h1, if_pos h2, decide_eq_true_eq]
    constructor
    · intro h; exact_mod_cast h
    · intro h; exact_mod_cast h
  by_cases h3 : 0 < meanQ prices
  · have hM : (0 : ℝ) < ((meanQ prices : ℚ) : ℝ) := by exact_mod_cast h3
    simp only [if_neg h1, if_neg h2, if_pos h3]
    by_cases hc : c < 0
    · simp only [if_pos hc, true_iff]
      have hcR : (c : ℝ) < 0 := by exact_mod_cast hc
      have : (0 : ℝ) ≤ Real.sqrt (sampleVarQ prices : ℚ) / (meanQ prices : ℝ) :=
        div_nonneg (Real.sqrt_nonneg _) (le_of_lt hM)
      linarith
    · push_neg at hc
      simp only [if_neg (not_lt.mpr hc), decide_eq_true_eq]
      have hcR : (0 : ℝ) ≤ (c : ℝ) := by exact_mod_cast hc
      rw [lt_div_iff₀ hM, Real.lt_sqrt (mul_nonneg hcR (le_of_lt hM))]
      constructor
      · intro h
        calc ((c : ℝ) * (meanQ prices : ℝ)) ^ 2
            = (((c * meanQ prices) ^ 2 : ℚ) : ℝ) := by push_cast; ring
          _ < ((sampleVarQ prices : ℚ) : ℝ) := by exact_mod_cast h
      · intro h
        have : (((c * meanQ prices) ^ 2 : ℚ) : ℝ) < ((sampleVarQ prices : ℚ) : ℝ) := by
          calc (((c * meanQ prices) ^ 2 : ℚ) : ℝ)
              = ((c : ℝ) * (meanQ prices : ℝ)) ^ 2 := by push_cast; ring
            _ < _ := h
        exact_mod_cast this
  · have hMlt : meanQ prices < 0 := lt_of_le_of_ne (le_of_not_lt h3) h2
    have hM : ((meanQ prices : ℚ) : ℝ) < 0 := by exact_mod_cast hMlt
    simp only [if_neg h1, if_neg h2, if_neg h3]
    by_cases hc : c < 0
    · simp only [if_pos hc, decide_eq_true_eq]
      have hcR : (c : ℝ) < 0 := by exact_mod_cast hc
      have hprod : (0 : ℝ) < (c : ℝ) * (meanQ prices : ℝ) := mul_pos_of_neg_of_neg hcR hM
      rw [lt_div_iff_of_neg hM, Real.sqrt_lt' hprod]
      constructor
      · intro h
        have h' : ((sampleVarQ prices : ℚ) : ℝ) < (((c * meanQ prices) ^ 2 : ℚ) : ℝ) := by
          exact_mod_cast h
        calc ((sampleVarQ prices : ℚ) : ℝ) < (((c * meanQ prices) ^ 2 : ℚ) : ℝ) := h'
          _ = ((c : ℝ) * (meanQ prices : ℝ)) ^ 2 := by push_cast; ring
      · intro h
        have h' : ((sampleVarQ prices : ℚ) : ℝ) < (((c * meanQ prices) ^ 2 : ℚ) : ℝ) := by
          calc ((sampleVarQ prices : ℚ) : ℝ) < ((c : ℝ) * (meanQ prices : ℝ)) ^ 2 := h
            _ = (((c * meanQ prices) ^ 2 : ℚ) : ℝ) := by push_cast; ring
        exact_mod_cast h'
    · push_neg at hc
      simp only [if_neg (not_lt.mpr hc), Bool.false_eq_true, false_iff, not_lt]
      have hcR : (0 : ℝ) ≤ (c : ℝ) := by exact_mod_cast hc
      have : Real.sqrt (sampleVarQ prices : ℚ) / (meanQ prices : ℝ) ≤ 0 :=
        div_nonpos_of_nonneg_of_nonpos (Real.sqrt_nonneg _) (le_of_lt hM)
      linarith

theorem pyRound_zero (n : ℕ) : pyRound 0 n = 0 := by
  norm_num [pyRound, pyRoundHE]

theorem pyTrunc_zero : pyTrunc 0 = 0 := by
  norm_num [pyTrunc]

/-- C3 counterexample.  At the concrete price list `[100, 200]` the source
volatility (sample coefficient of variation, via `statistics.stdev`) differs
from the population coefficient of variation the claim describes:
`√5000/150 ≠ √2500/150`. -/
theorem c3_counterexample_not_population_cv :
    calculate_volatility [100, 200] ≠ claimPopulationCV [100, 200] := by
  have hm : meanQ [100, 200] = 150 := by norm_num [meanQ]
  have hs : sampleVarQ [100, 200] = 5000 := by norm_num [sampleVarQ, meanQ]
  have hp : popVarQ [100, 200] = 2500 := by norm_num [popVarQ, meanQ]
  have hlen : ¬ ([100, 200] : List ℚ).length < 2 := by norm_num
  unfold calculate_volatility claimPopulationCV
  rw [if_neg hlen, if_neg hlen, hm, hs, hp]
  rw [if_neg (by norm_num : ¬ (150 : ℚ) = 0), if_neg (by norm_num : ¬ (150 : ℚ) = 0)]
  intro heq
  field_simp at heq
  norm_num at heq

/-- C3 (amended).  `_calculate_volatility` returns the sample
(Bessel-corrected) coefficient of variation of its input list — equal to
`√((n·Σx² − (Σx)²)/(n(n−1))) / mean` — not the population one; it returns 0
for fewer than 2 points or a zero mean, and in particular
`volatility([100,100,100]) = 0` and `volatility([]) = 0` without raising. -/
theorem c3_volatility_is_sample_cv (ps : List ℚ) :
    calculate_volatility ps = sampleCoeffVariation ps ∧
    (ps.length < 2 → calculate_volatility ps = 0) ∧
    (meanQ ps = 0 → calculate_volatility ps = 0) ∧
    calculate_volatility [100, 100, 100] = 0 ∧
    calculate_volatility [] = 0 := by
  refine ⟨?_, ?_, ?_, ?_, ?_⟩
  · unfold calculate_volatility sampleCoeffVariation
    by_cases h1 : ps.length < 2
    · rw [if_pos h1, if_pos h1]
    by_cases h2 : meanQ ps = 0
    · rw [if_neg h1, if_neg h1, if_pos h2, if_pos h2]
    rw [if_neg h1, if_neg h1, if_neg h2, if_neg h2, sampleVarQ_alt h1]
  · intro h; unfold calculate_volatility; rw [if_pos h]
  · intro h; unfold calculate_volatility
    by_cases h1 : ps.length < 2
    · rw [if_pos h1]
    · rw [if_neg h1, if_pos h]
  · have hv : sampleVarQ [100, 100, 100] = 0 := by norm_num [sampleVarQ, meanQ]
    unfold calculate_volatility
    rw [if_neg (by norm_num : ¬ ([100, 100, 100] : List ℚ).length < 2),
      if_neg (by norm_num [meanQ] : ¬ meanQ [100, 100, 100] = 0), hv]
    simp
  · unfold calculate_volatility
    norm_num

/-- Witness for the amended C3 at concrete inputs: the empty list and a
singleton (fewer than 2 points) both give volatility 0. -/
theorem c3_volatility_is_sample_cv_witness :
    calculate_volatility [] = 0 ∧ calculate_volatility [100] = 0 :=
  ⟨(c3_volatility_is_sample_cv []).2.2.2.2,
   (c3_volatility_is_sample_cv [100]).2.1 (by norm_num)⟩

/-- C4 counterexample.  For the two-point series with suburb values 100 and
300 (a 3× multiple) the growth sub-score is `3 × 3.33 = 9.99`, not the 10
points the claim states. -/
theorem c4_counterexample_cap_is_999 :
    growth_score [⟨.str "2020-01-01", 100, 0, 0⟩, ⟨.str "2021-01-01", 300, 0, 0⟩]
        = 999/100 ∧
    (999 : ℚ)/100 ≠ 10 := by
  constructor
  · norm_num [growth_score, growthMultiple, List.getLastD]
  · norm_num

/-- C4 (amended).  For a non-empty series the growth sub-score is
`min(last/first, 3) × 3.33` when the first suburb value is positive (and
`1 × 3.33` otherwise); a last-to-first multiple of 3 or more caps the
sub-score at `9.99`, and lower multiples scale linearly. -/
theorem c4_growth_subscore (p : PricePoint) (ps : List PricePoint) :
    (0 < p.suburb →
      growth_score (p :: ps)
        = min (((p :: ps).getLastD p).suburb / p.suburb) 3 * (333/100)) ∧
    (¬ 0 < p.suburb → growth_score (p :: ps) = 333/100) ∧
    (0 < p.suburb → 3 ≤ ((p :: ps).getLastD p).suburb / p.suburb →
      growth_score (p :: ps) = 999/100) := by
  refine ⟨fun h => ?_, fun h => ?_, fun h h3 => ?_⟩
  · simp only [growth_score, growthMultiple]
    rw [if_pos h]
  · simp only [growth_score, growthMultiple]
    rw [if_neg h]
    norm_num
  · simp only [growth_score, growthMultiple]
    rw [if_pos h, min_eq_right h3]
    norm_num

/-- Witness for the amended C4 at a concrete input with a positive first
value. -/
theorem c4_growth_subscore_witness :
    growth_score ((⟨.str "2020-01-01", 100, 0, 0⟩ : PricePoint)
        :: [⟨.str "2021-01-01", 200, 0, 0⟩])
      = min ((((⟨.str "2020-01-01", 100, 0, 0⟩ : PricePoint)
          :: [⟨.str "2021-01-01", 200, 0, 0⟩]).getLastD
            ⟨.str "2020-01-01", 100, 0, 0⟩).suburb
          / (⟨.str "2020-01-01", 100, 0, 0⟩ : PricePoint).suburb) 3 * (333/100) :=
  (c4_growth_subscore ⟨.str "2020-01-01", 100, 0, 0⟩
    [⟨.str "2021-01-01", 200, 0, 0⟩]).1 (by norm_num)

/-- C10.  The regional comparison returns, on the empty series, price 0,
difference 0 and status `"below"` for both CR and SA3; while on a non-empty
series whose latest CR (resp. SA3) value is zero the guard yields difference
0 and status `"above"` — the opposite status. -/
theorem c10_regional_comparison_boundary :
    (calculate_regional_comparison [] = ⟨⟨0, 0, "below"⟩, ⟨0, 0, "below"⟩⟩) ∧
    (∀ (p : PricePoint) (ps : List PricePoint),
      (((p :: ps).getLastD p).cr = 0 →
        (calculate_regional_comparison (p :: ps)).cr = ⟨0, 0, "above"⟩) ∧
      (((p :: ps).getLastD p).sa3 = 0 →
        (calculate_regional_comparison (p :: ps)).sa3 = ⟨0, 0, "above"⟩)) := by
  constructor
  · rfl
  · intro p ps
    constructor
    · intro h
      show RegionEntry.mk _ _ _ = _
      rw [h]
      have hz : ¬ (0 : ℚ) < 0 := lt_irrefl 0
      simp only [if_neg hz, pyTrunc_zero, pyRound_zero]
    · intro h
      show RegionEntry.mk _ _ _ = _
      rw [h]
      have hz : ¬ (0 : ℚ) < 0 := lt_irrefl 0
      simp only [if_neg hz, pyTrunc_zero, pyRound_zero]

/-- Witness for C10 at a concrete input: a one-point series with zero CR and
SA3 region values. -/
theorem c10_regional_comparison_boundary_witness :
    (calculate_regional_comparison [⟨.str "2020-01-01", 5, 0, 0⟩]).cr
        = ⟨0, 0, "above"⟩ ∧
    (calculate_regional_comparison [⟨.str "2020-01-01", 5, 0, 0⟩]).sa3
        = ⟨0, 0, "above"⟩ :=
  ⟨(c10_regional_comparison_boundary.2 ⟨.str "2020-01-01", 5, 0, 0⟩ []).1 rfl,
   (c10_regional_comparison_boundary.2 ⟨.str "2020-01-01", 5, 0, 0⟩ []).2 rfl⟩

/-- When every date in the series parses (to the day numbers `ds`), the
baseline-search loop returns, without raising, the suburb value of the first
qualifying point: the first `(q, d)` in `s.zip ds` with `cutoff ≤ d` and
`0 < q.suburb`. -/
theorem findBaseline_eq (cutoff : ℤ) :
    ∀ (s : List PricePoint) (ds : List ℤ),
      s.map (fun q => parseDateJ q.date) = ds.map Except.ok →
      findBaseline cutoff s
        = .ok ((((s.zip ds).find?
            (fun qd => decide (cutoff ≤ qd.2) && decide (0 < qd.1.suburb))).map
              (fun qd => qd.1.suburb))) := by
  intro s
  induction s with
  | nil =>
    intro ds h
    cases ds with
    | nil => rfl
    | cons d dt => simp at h
  | cons p t ih =>
    intro ds h
    cases ds with
    | nil => simp at h
    | cons d dt =>
      simp only [List.map_cons, List.cons.injEq] at h
      obtain ⟨h1, h2⟩ := h
      simp only [findBaseline, h1, Bind.bind, Except.bind, List.zip_cons_cons, List.find?]
      by_cases hc : cutoff ≤ d ∧ 0 < p.suburb
      · have hb : (decide (cutoff ≤ d) && decide (0 < p.suburb)) = true := by
          simp [hc.1, hc.2]
        rw [if_pos hc, hb]
        rfl
      · have hb : (decide (cutoff ≤ d) && decide (0 < p.suburb)) = false := by
          rcases not_and_or.mp hc with hcl | hcr
          · simp [hcl]
          · simp [hcr]
        rw [if_neg hc, hb]
        exact ih dt h2

/-- When every element of `s` maps to `Except.ok` of the corresponding
element of `ds`, the same holds for the `getLastD` of both lists. -/
theorem parse_getLastD {f : PricePoint → Except Unit ℤ} :
    ∀ (s : List PricePoint) (ds : List ℤ) (p0 : PricePoint) (d0 : ℤ),
      s.map f = ds.map Except.ok → f p0 = Except.ok d0 →
      f (s.getLastD p0) = Except.ok (ds.getLastD d0) := by
  intro s
  induction s with
  | nil =>
    intro ds p0 d0 h h0
    cases ds with
    | nil => simpa using h0
    | cons d dt => simp at h
  | cons p t ih =>
    intro ds p0 d0 h h0
    cases ds with
    | nil => simp at h
    | cons d dt =>
      simp only [List.map_cons, List.cons.injEq] at h
      obtain ⟨h1, h2⟩ := h
      rw [List.getLastD_cons, List.getLastD_cons]
      exact ih dt p d h2 h1

/-- Closed form of `_calculate_current_metrics` on a series whose dates all
parse to the day numbers `d :: dt`: no exception, the price is the truncated
last suburb value, the 1-year/5-year baselines are the first `zip` entries
qualifying against cutoffs 365/1825 days before the last date (defaulting to
the current price), and total growth baselines on the first point. -/
theorem calculate_current_metrics_closed_form
    (p : PricePoint) (ps : List PricePoint) (d : ℤ) (dt : List ℤ)
    (hparse : (p :: ps).map (fun q => parseDateJ q.date) = (d :: dt).map Except.ok) :
    calculate_current_metrics (p :: ps) = .ok
      ⟨pyTrunc ((p :: ps).getLastD p).suburb,
       pyRound (growthPct ((p :: ps).getLastD p).suburb
         (((((p :: ps).zip (d :: dt)).find? (fun qd =>
             decide ((d :: dt).getLastD 0 - 365 ≤ qd.2) && decide (0 < qd.1.suburb))).map
               (fun qd => qd.1.suburb)).getD ((p :: ps).getLastD p).suburb)) 2,
       pyRound (growthPct ((p :: ps).getLastD p).suburb
         (((((p :: ps).zip (d :: dt)).find? (fun qd =>
             decide ((d :: dt).getLastD 0 - 1825 ≤ qd.2) && decide (0 < qd.1.suburb))).map
               (fun qd => qd.1.suburb)).getD ((p :: ps).getLastD p).suburb)) 2,
       pyRound (growthPct ((p :: ps).getLastD p).suburb
         (if 0 < p.suburb then p.suburb else ((p :: ps).getLastD p).suburb)) 2⟩ := by
  have h1 : parseDateJ p.date = Except.ok d := by
    have h := hparse
    simp only [List.map_cons, List.cons.injEq] at h
    exact h.1
  have hlast : parseDateJ ((p :: ps).getLastD p).date
      = Except.ok ((d :: dt).getLastD 0) := by
    have h := parse_getLastD (p :: ps) (d :: dt) p d hparse h1
    simpa [List.getLastD_cons] using h
  have hb1 := findBaseline_eq ((d :: dt).getLastD 0 - 365) (p :: ps) (d :: dt) hparse
  have hb5 := findBaseline_eq ((d :: dt).getLastD 0 - 1825) (p :: ps) (d :: dt) hparse
  simp only [calculate_current_metrics, hlast, Bind.bind, Except.bind, hb1, hb5]
  rfl

/-- C7.  For a non-empty, date-sorted series whose dates all parse to day
numbers `ds`, the metrics computation raises nothing; the 1-year (resp.
5-year) growth scans from the earliest point forward and uses the first point
whose parsed date is on/after the last date minus 365 (resp. 1825) days and
whose suburb value is positive as baseline, reporting
`round((current − base)/base × 100, 2)` with the positive baseline making the
divide-by-zero guard pass; when no point qualifies, the baseline defaults to
the current price and the growth reported is 0; total growth uses the first
point's value as baseline when positive and reports 0 otherwise. -/
theorem c7_growth_baseline_scan
    (p : PricePoint) (ps : List PricePoint) (ds : List ℤ)
    (hparse : (p :: ps).map (fun q => parseDateJ q.date) = ds.map Except.ok)
    (_hsorted : ds.Pairwise (· ≤ ·)) :
    ∃ m : CurrentMetrics,
      calculate_current_metrics (p :: ps) = .ok m ∧
      m.price = pyTrunc ((p :: ps).getLastD p).suburb ∧
      (∀ q d, ((p :: ps).zip ds).find?
            (fun qd => decide (ds.getLastD 0 - 365 ≤ qd.2) && decide (0 < qd.1.suburb))
          = some (q, d) →
        m.growth1y
          = pyRound ((((p :: ps).getLastD p).suburb - q.suburb) / q.suburb * 100) 2) ∧
      (((p :: ps).zip ds).find?
            (fun qd => decide (ds.getLastD 0 - 365 ≤ qd.2) && decide (0 < qd.1.suburb))
          = none →
        m.growth1y = 0) ∧
      (∀ q d, ((p :: ps).zip ds).find?
            (fun qd => decide (ds.getLastD 0 - 1825 ≤ qd.2) && decide (0 < qd.1.suburb))
          = some (q, d) →
        m.growth5y
          = pyRound ((((p :: ps).getLastD p).suburb - q.suburb) / q.suburb * 100) 2) ∧
      (((p :: ps).zip ds).find?
            (fun qd => decide (ds.getLastD 0 - 1825 ≤ qd.2) && decide (0 < qd.1.suburb))
          = none →
        m.growth5y = 0) ∧
      (0 < p.suburb →
        m.growthTotal
          = pyRound ((((p :: ps).getLastD p).suburb - p.suburb) / p.suburb * 100) 2) ∧
      (¬ 0 < p.suburb → m.growthTotal = 0) := by
  cases ds with
  | nil => exact absurd hparse (by simp)
  | cons d dt =>
    refine ⟨_, calculate_current_metrics_closed_form p ps d dt hparse,
      rfl, ?_, ?_, ?_, ?_, ?_, ?_⟩
    · intro q dq hfind
      show pyRound (growthPct _ _) 2 = _
      rw [hfind]
      have hq := List.find?_some hfind
      simp only [Bool.and_eq_true, decide_eq_true_eq] at hq
      simp only [Option.map_some', Option.getD_some]
      rw [growthPct, if_pos hq.2]
    · intro hfind
      show pyRound (growthPct _ _) 2 = _
      rw [hfind]
      simp only [Option.map_none', Option.getD_none]
      by_cases hcur : 0 < ((p :: ps).getLastD p).suburb
      · rw [growthPct, if_pos hcur]
        simp [pyRound_zero]
      · rw [growthPct, if_neg hcur]
        exact pyRound_zero 2
    · intro q dq hfind
      show pyRound (growthPct _ _) 2 = _
      rw [hfind]
      have hq := List.find?_some hfind
      simp only [Bool.and_eq_true, decide_eq_true_eq] at hq
      simp only [Option.map_some', Option.getD_some]
      rw [growthPct, if_pos hq.2]
    · intro hfind
      show pyRound (growthPct _ _) 2 = _
      rw [hfind]
      simp only [Option.map_none', Option.getD_none]
      by_cases hcur : 0 < ((p :: ps).getLastD p).suburb
      · rw [growthPct, if_pos hcur]
        simp [pyRound_zero]
      · rw [growthPct, if_neg hcur]
        exact pyRound_zero 2
    · intro hp
      show pyRound (growthPct _ _) 2 = _
      rw [if_pos hp, growthPct, if_pos hp]
    · intro hp
      show pyRound (growthPct _ _) 2 = _
      rw [if_neg hp]
      by_cases hcur : 0 < ((p :: ps).getLastD p).suburb
      · rw [growthPct, if_pos hcur]
        simp [pyRound_zero]
      · rw [growthPct, if_neg hcur]
        exact pyRound_zero 2

/-- Witness for C7 at a concrete two-point series (2020-06-01 at 500000,
2021-06-01 at 550000, dates parsing to day numbers 18414 and 18779). -/
theorem c7_growth_baseline_scan_witness :
    ∃ m : CurrentMetrics,
      calculate_current_metrics
          ((⟨.str "2020-06-01", 500000, 0, 0⟩ : PricePoint)
            :: [⟨.str "2021-06-01", 550000, 520000, 0⟩]) = .ok m ∧
      m.price = pyTrunc (550000 : ℚ) := by
  obtain ⟨m, hm, hprice, -⟩ :=
    c7_growth_baseline_scan ⟨.str "2020-06-01", 500000, 0, 0⟩
      [⟨.str "2021-06-01", 550000, 520000, 0⟩] [18414, 18779] rfl (by decide)
  exact ⟨m, hm, hprice⟩

theorem extractFold_cons_rec (r : MarketRec) (items : List Json) (acc : List PricePoint) :
    extractFold (recJson r :: items) acc
      = (if ¬ pyEqJStr (.str r.metric) "sell_price" ∨ ¬ pyEqJStr (.str r.property_type) "house"
          then extractFold items acc
        else if ¬ (Json.str r.date).truthy then extractFold items acc
        else if acc.any (fun q => pyKeyEq q.date (.str r.date)) then extractFold items acc
        else extractFold items (acc ++ [⟨.str r.date, r.value, r.cr, r.sa3⟩])) := rfl

theorem any_map_keyEq (acc : List MarketPt) (d : String) :
    (acc.map ptJson).any (fun q => pyKeyEq q.date (.str d))
      = acc.any (fun q => q.date == d) := by
  induction acc with
  | nil => rfl
  | cons a t ih =>
    simp only [List.map_cons, List.any_cons, ih]
    rfl

theorem extractFold_recJson (rs : List MarketRec) :
    ∀ acc : List MarketPt,
      extractFold (rs.map recJson) (acc.map ptJson)
        = .ok ((dedupFold rs acc).map ptJson) := by
  induction rs with
  | nil => intro acc; rfl
  | cons r rest ih =>
    intro acc
    rw [List.map_cons, extractFold_cons_rec]
    by_cases hm : r.metric == "sell_price"
    case neg =>
      rw [if_pos (Or.inl (by simpa [pyEqJStr] using hm)), ih]
      rw [dedupFold, if_neg (by simp [keeps, hm])]
    case pos =>
    by_cases hp : r.property_type == "house"
    case neg =>
      rw [if_pos (Or.inr (by simpa [pyEqJStr] using hp)), ih]
      rw [dedupFold, if_neg (by simp [keeps, hp])]
    case pos =>
    have hnot : ¬ (¬ pyEqJStr (.str r.metric) "sell_price"
        ∨ ¬ pyEqJStr (.str r.property_type) "house") := by
      simp [pyEqJStr, hm, hp]
    rw [if_neg hnot]
    by_cases hd : r.date = ""
    case pos =>
      rw [if_pos (by simp [Json.truthy, hd]), ih]
      rw [dedupFold, if_neg (by simp [keeps, hd])]
    case neg =>
      rw [if_neg (by simp [Json.truthy, hd])]
      have hkeeps : keeps r = true := by
        simp [keeps, hm, hp, bne, hd]
      rw [any_map_keyEq]
      by_cases hmem : acc.any (fun q => q.date == r.date)
      · rw [if_pos hmem, ih, dedupFold, if_pos hkeeps, if_pos hmem]
      · rw [if_neg hmem]
        have : (acc.map ptJson) ++ [(⟨.str r.date, r.value, r.cr, r.sa3⟩ : PricePoint)]
            = (acc ++ [recPoint r]).map ptJson := by
          simp [recPoint, ptJson]
        rw [this, ih, dedupFold, if_pos hkeeps, if_neg hmem]

theorem insertPointE_map (a : MarketPt) (l : List MarketPt) :
    insertPointE (ptJson a) (l.map ptJson)
      = .ok ((List.orderedInsert ptLe a l).map ptJson) := by
  induction l with
  | nil => rfl
  | cons b t ih =>
    simp only [List.map_cons, insertPointE, List.orderedInsert, ptJson, pyLtJ,
      Bind.bind, Except.bind]
    by_cases h : b.date.data < a.date.data
    · rw [if_neg (show ¬ ptLe a b from not_le.mpr h)]
      simp only [decide_eq_true_eq, if_pos h]
      simp only [ptJson] at ih
      rw [ih]
      rfl
    · rw [if_pos (show ptLe a b from le_of_not_lt h)]
      simp only [decide_eq_true_eq, if_neg h]
      rfl

theorem sortPointsE_map (l : List MarketPt) :
    sortPointsE (l.map ptJson) = .ok ((List.insertionSort ptLe l).map ptJson) := by
  induction l with
  | nil => rfl
  | cons a t ih =>
    simp only [List.map_cons, sortPointsE, List.insertionSort, Bind.bind, Except.bind, ih]
    exact insertPointE_map a _

/-- On any list of well-formed raw records, the Json-level
`_extract_price_series` succeeds and agrees with the record-level
extraction. -/
theorem extract_on_records (rs : List MarketRec) :
    extract_price_series (.arr (rs.map recJson)) = .ok ((extractR rs).map ptJson) := by
  unfold extract_price_series extractR
  simp only [pyIterE, Bind.bind, Except.bind]
  have h1 := extractFold_recJson rs []
  simp only [List.map_nil] at h1
  rw [h1]
  exact sortPointsE_map _

/-- The grouping loop only appends: its accumulator is a prefix of its
result. -/
theorem dedupFold_append (rs : List MarketRec) :
    ∀ acc, ∃ t, dedupFold rs acc = acc ++ t := by
  induction rs with
  | nil => intro acc; exact ⟨[], (List.append_nil acc).symm⟩
  | cons r rest ih =>
    intro acc
    rw [dedupFold]
    by_cases hk : keeps r
    · rw [if_pos hk]
      by_cases hmem : acc.any (fun q => q.date == r.date)
      · rw [if_pos hmem]; exact ih acc
      · rw [if_neg hmem]
        obtain ⟨t, ht⟩ := ih (acc ++ [recPoint r])
        exact ⟨recPoint r :: t, by simp [ht]⟩
    · rw [if_neg hk]; exact ih acc

/-- The grouping loop keeps dates pairwise distinct. -/
theorem dedupFold_pairwise_ne (rs : List MarketRec) :
    ∀ acc, acc.Pairwise (fun a b => a.date ≠ b.date) →
      (dedupFold rs acc).Pairwise (fun a b => a.date ≠ b.date) := by
  induction rs with
  | nil => intro acc h; exact h
  | cons r rest ih =>
    intro acc h
    rw [dedupFold]
    by_cases hk : keeps r
    · rw [if_pos hk]
      by_cases hmem : acc.any (fun q => q.date == r.date)
      · rw [if_pos hmem]; exact ih acc h
      · rw [if_neg hmem]
        refine ih (acc ++ [recPoint r]) ?_
        rw [List.pairwise_append]
        refine ⟨h, List.pairwise_singleton _ _, ?_⟩
        intro a ha b hb
        have hb' : b = recPoint r := by simpa using hb
        have := List.any_eq_false.mp (Bool.eq_false_iff.mpr hmem) a ha
        subst hb'
        intro hcon
        exact this (by simp [recPoint] at hcon ⊢; exact hcon)
    · rw [if_neg hk]; exact ih acc h

/-- Every point the grouping loop adds comes from the first kept record with
its date. -/
theorem dedupFold_mem (rs : List MarketRec) :
    ∀ acc q, q ∈ dedupFold rs acc →
      q ∈ acc ∨ ((∀ a ∈ acc, a.date ≠ q.date) ∧
        ∃ r, (rs.filter keeps).find? (fun x => x.date == q.date) = some r
          ∧ q = recPoint r) := by
  induction rs with
  | nil => intro acc q h; exact Or.inl h
  | cons r rest ih =>
    intro acc q h
    by_cases hk : keeps r
    · rw [dedupFold, if_pos hk] at h
      rw [List.filter_cons_of_pos hk]
      by_cases hmem : acc.any (fun x => x.date == r.date)
      · rw [if_pos hmem] at h
        rcases ih acc q h with hin | ⟨hfresh, r', hfind, hq⟩
        · exact Or.inl hin
        · refine Or.inr ⟨hfresh, r', ?_, hq⟩
          obtain ⟨a, ha, had⟩ := List.any_eq_true.mp hmem
          have hane : r.date ≠ q.date := by
            have h1 : a.date = r.date := by simpa using had
            have h2 : a.date ≠ q.date := hfresh a ha
            rw [h1] at h2
            exact h2
          rw [List.find?_cons_of_neg _ (by simpa using hane)]
          exact hfind
      · rw [if_neg hmem] at h
        rcases ih (acc ++ [recPoint r]) q h with hin | ⟨hfresh, r', hfind, hq⟩
        · rcases List.mem_append.mp hin with hin1 | hin2
          · exact Or.inl hin1
          · have hq : q = recPoint r := by simpa using hin2
            refine Or.inr ⟨?_, r, ?_, hq⟩
            · intro a ha
              have := List.any_eq_false.mp (Bool.eq_false_iff.mpr hmem) a ha
              intro hcon
              exact this (by rw [hq] at hcon; simpa [recPoint] using hcon)
            · rw [List.find?_cons_of_pos _ (by simp [hq, recPoint])]
        · refine Or.inr ⟨fun a ha => hfresh a (List.mem_append_left _ ha), r', ?_, hq⟩
          have hrne : r.date ≠ q.date := by
            have := hfresh (recPoint r) (List.mem_append_right _ (by simp))
            simpa [recPoint] using this
          rw [List.find?_cons_of_neg _ (by simpa using hrne)]
          exact hfind
    · rw [dedupFold, if_neg hk] at h
      rw [List.filter_cons_of_neg hk]
      exact ih acc q h

/-- Every kept record's date appears in the grouping result. -/
theorem dedupFold_covers (rs : List MarketRec) :
    ∀ acc r, r ∈ rs → keeps r = true →
      ∃ q, q ∈ dedupFold rs acc ∧ q.date = r.date := by
  induction rs with
  | nil => intro acc r hr; exact absurd hr (List.not_mem_nil r)
  | cons r0 rest ih =>
    intro acc r hr hk
    rw [dedupFold]
    rcases List.mem_cons.mp hr with rfl | hr'
    · rw [if_pos hk]
      by_cases hmem : acc.any (fun q => q.date == r.date)
      · rw [if_pos hmem]
        obtain ⟨a, ha, had⟩ := List.any_eq_true.mp hmem
        obtain ⟨t, ht⟩ := dedupFold_append rest acc
        exact ⟨a, by rw [ht]; exact List.mem_append_left _ ha, by simpa using had⟩
      · rw [if_neg hmem]
        obtain ⟨t, ht⟩ := dedupFold_append rest (acc ++ [recPoint r])
        refine ⟨recPoint r, ?_, rfl⟩
        rw [ht]
        exact List.mem_append_left _ (List.mem_append_right _ (by simp))
    · by_cases hk0 : keeps r0
      · rw [if_pos hk0]
        by_cases hmem : acc.any (fun q => q.date == r0.date)
        · rw [if_pos hmem]; exact ih acc r hr' hk
        · rw [if_neg hmem]; exact ih (acc ++ [recPoint r0]) r hr' hk
      · rw [if_neg hk0]; exact ih acc r hr' hk

/-- C8.  On every list of raw market records: the extraction succeeds and
equals the record-level grouping+sort; the output is strictly ascending by
date string; every output point is the first record (in scan order) with
metric `sell_price`, property type `house` and that date, carrying that
record's values; every kept record's date is represented; and two
`sell_price`/`house` records sharing a date yield exactly one point with the
first value encountered. -/
theorem c8_extract_price_series (rs : List MarketRec) :
    extract_price_series (.arr (rs.map recJson)) = .ok ((extractR rs).map ptJson) ∧
    (extractR rs).Pairwise (fun a b => a.date.data < b.date.data) ∧
    (∀ q ∈ extractR rs,
      ∃ r, (rs.filter keeps).find? (fun x => x.date == q.date) = some r
        ∧ q = recPoint r) ∧
    (∀ r ∈ rs, keeps r = true → ∃ q, q ∈ extractR rs ∧ q.date = r.date) ∧
    extract_price_series (.arr (([⟨"sell_price", "house", "2020-01-01", 500000, 0, 0⟩,
        ⟨"sell_price", "house", "2020-01-01", 600000, 0, 0⟩] : List MarketRec).map recJson))
      = .ok [ptJson ⟨"2020-01-01", 500000, 0, 0⟩] := by
  have hperm := List.perm_insertionSort ptLe (dedupFold rs [])
  have hsymm : ∀ {x y : MarketPt}, x.date ≠ y.date → y.date ≠ x.date :=
    fun h e => h e.symm
  refine ⟨extract_on_records rs, ?_, ?_, ?_, ?_⟩
  · have hne : (extractR rs).Pairwise (fun a b => a.date ≠ b.date) :=
      (hperm.pairwise_iff hsymm).mpr (dedupFold_pairwise_ne rs [] List.Pairwise.nil)
    have hsorted : (extractR rs).Pairwise ptLe :=
      List.sorted_insertionSort ptLe (dedupFold rs [])
    refine (hsorted.and hne).imp ?_
    rintro a b ⟨hle, hneq⟩
    refine lt_of_le_of_ne hle fun hdata => hneq ?_
    cases ha : a.date
    cases hb : b.date
    rw [ha, hb] at hdata
    exact congrArg String.mk (by simpa using hdata)
  · intro q hq
    have hq' : q ∈ dedupFold rs [] := hperm.mem_iff.mp hq
    rcases dedupFold_mem rs [] q hq' with hin | ⟨-, r, hfind, hrec⟩
    · exact absurd hin (List.not_mem_nil q)
    · exact ⟨r, hfind, hrec⟩
  · intro r hr hk
    obtain ⟨q, hq, hd⟩ := dedupFold_covers rs [] r hr hk
    exact ⟨q, hperm.mem_iff.mpr hq, hd⟩
  · rfl

/-- Witness for C8 at a concrete list of two records, one kept. -/
theorem c8_extract_price_series_witness :
    ∃ q, q ∈ extractR [⟨"sell_price", "house", "2020-01-01", 500000, 0, 0⟩,
        ⟨"rent_price", "house", "2020-02-01", 1, 2, 3⟩] ∧ q.date = "2020-01-01" :=
  (c8_extract_price_series _).2.2.2.1 ⟨"sell_price", "house", "2020-01-01", 500000, 0, 0⟩
    (by simp) rfl

theorem transformDemographics_shape {raw y : Json}
    (h : transformDemographics raw = .ok y) :
    y = .obj [] ∨ ∃ A E, y = .obj [("ageDistribution", A), ("ethnicity", E)] := by
  unfold transformDemographics at h
  by_cases ht : raw.truthy
  · rw [if_neg (by simp [ht])] at h
    cases hA : demAgeDist raw with
    | error e => rw [hA] at h; simp [Bind.bind, Except.bind, pure, Except.pure] at h
    | ok a =>
      rw [hA] at h
      cases hE : demEthnicity raw with
      | error e => rw [hE] at h; simp [Bind.bind, Except.bind, pure, Except.pure] at h
      | ok e =>
        rw [hE] at h
        simp only [Bind.bind, Except.bind, pure, Except.pure, Except.ok.injEq] at h
        exact Or.inr ⟨_, _, h.symm⟩
  · rw [if_pos (by simp [ht])] at h
    simp only [pure, Except.pure, Except.ok.injEq] at h
    exact Or.inl h.symm

theorem canonDemographics_idem {x y : Json} (h : canonDemographics x = .ok y) :
    canonDemographics y = .ok y := by
  have hsplit : y = x ∨
      (y = .obj [] ∨ ∃ A E, y = .obj [("ageDistribution", A), ("ethnicity", E)]) := by
    unfold canonDemographics at h
    cases hin : pyIn "ageDistribution" x with
    | error e => rw [hin] at h; simp [Bind.bind, Except.bind] at h
    | ok b =>
      rw [hin] at h
      cases b with
      | true =>
        simp only [Bind.bind, Except.bind, if_true, pure, Except.pure,
          Except.ok.injEq] at h
        exact Or.inl h.symm
      | false =>
        have h' : transformDemographics x = .ok y := by
          simpa [Bind.bind, Except.bind] using h
        exact Or.inr (transformDemographics_shape h')
  rcases hsplit with rfl | (rfl | ⟨A, E, rfl⟩)
  · exact h
  · rfl
  · rfl

/-- Inversion for a successful `Except` bind. -/
theorem exceptBind_ok {α β : Type} {x : Except Unit α} {f : α → Except Unit β} {y : β}
    (h : (x >>= f) = .ok y) : ∃ a, x = .ok a ∧ f a = .ok y := by
  cases x with
  | error e => simp [Bind.bind, Except.bind] at h
  | ok a => exact ⟨a, rfl, by simpa [Bind.bind, Except.bind] using h⟩

/-- Inversion for a successful `Except` pure. -/
theorem pure_ok {α : Type} {a y : α} (h : (pure a : Except Unit α) = .ok y) : a = y := by
  simpa [pure, Except.pure] using h

theorem transformAmenities_shape {raw y : Json} (h : transformAmenities raw = .ok y) :
    y = raw ∨
    ∃ cats total, y = .obj [("categories", .arr cats), ("total", .num total)] ∧
      ∀ c ∈ cats, ∃ v rest, c = .obj (("name", v) :: rest) := by
  unfold transformAmenities at h
  by_cases ht : raw.truthy
  · rw [if_neg (by simp [ht])] at h
    obtain ⟨-, -, h⟩ := exceptBind_ok h
    obtain ⟨b, hin, h⟩ := exceptBind_ok h
    cases b with
    | false =>
      rw [if_neg (by simp)] at h
      exact Or.inl (pure_ok h).symm
    | true =>
      rw [if_pos rfl] at h
      obtain ⟨results, hres, h⟩ := exceptBind_ok h
      obtain ⟨items, hit, h⟩ := exceptBind_ok h
      obtain ⟨counts, hcnt, h⟩ := exceptBind_ok h
      obtain ⟨total, hlen, h⟩ := exceptBind_ok h
      obtain rfl := pure_ok h
      refine Or.inr ⟨_, _, rfl, ?_⟩
      intro c hc
      obtain ⟨kv, -, rfl⟩ := List.mem_map.mp hc
      exact ⟨kv.1, _, rfl⟩
  · rw [if_pos (by simp [ht])] at h
    obtain rfl := pure_ok h
    exact Or.inr ⟨[], 0, rfl, fun c hc => absurd hc (List.not_mem_nil c)⟩

theorem canonAmenities_of_shape (cats : List Json) (total : ℚ)
    (hc : ∀ c ∈ cats, ∃ v rest, c = .obj (("name", v) :: rest)) :
    canonAmenities (.obj [("categories", .arr cats), ("total", .num total)])
      = .ok (.obj [("categories", .arr cats), ("total", .num total)]) := by
  unfold canonAmenities
  cases cats with
  | nil => rfl
  | cons c t =>
    obtain ⟨v, rest, rfl⟩ := hc c (List.mem_cons_self c t)
    rfl

theorem canonAmenities_idem {x y : Json} (h : canonAmenities x = .ok y) :
    canonAmenities y = .ok y := by
  have hshape : ∀ z : Json, transformAmenities x = .ok z →
      (z = x ∨ ∃ cats total, z = .obj [("categories", .arr cats), ("total", .num total)] ∧
        ∀ c ∈ cats, ∃ v rest, c = .obj (("name", v) :: rest)) :=
    fun _ hz => transformAmenities_shape hz
  have hsplit : y = x ∨
      ∃ cats total, y = .obj [("categories", .arr cats), ("total", .num total)] ∧
        ∀ c ∈ cats, ∃ v rest, c = .obj (("name", v) :: rest) := by
    unfold canonAmenities at h
    obtain ⟨b, hin, h⟩ := exceptBind_ok h
    cases b with
    | false =>
      rw [if_neg (by simp)] at h
      rcases hshape y h with hy | hs
      · exact Or.inl hy
      · exact Or.inr hs
    | true =>
      rw [if_pos rfl] at h
      obtain ⟨cats, hcats, h⟩ := exceptBind_ok h
      match cats, h with
      | .arr [], h => exact Or.inl (pure_ok h).symm
      | .arr (c :: cs), h =>
        obtain ⟨nb, hn, h⟩ := exceptBind_ok h
        cases nb with
        | true =>
          rw [if_pos rfl] at h
          exact Or.inl (pure_ok h).symm
        | false =>
          rw [if_neg (by simp)] at h
          rcases hshape y h with hy | hs
          · exact Or.inl hy
          · exact Or.inr hs
      | .null, h =>
        rcases hshape y h with hy | hs
        · exact Or.inl hy
        · exact Or.inr hs
      | .bool bb, h =>
        rcases hshape y h with hy | hs
        · exact Or.inl hy
        · exact Or.inr hs
      | .num q, h =>
        rcases hshape y h with hy | hs
        · exact Or.inl hy
        · exact Or.inr hs
      | .str s, h =>
        rcases hshape y h with hy | hs
        · exact Or.inl hy
        · exact Or.inr hs
      | .obj kvs, h =>
        rcases hshape y h with hy | hs
        · exact Or.inl hy
        · exact Or.inr hs
  rcases hsplit with rfl | ⟨cats, total, rfl, hc⟩
  · exact h
  · exact canonAmenities_of_shape cats total hc

theorem schoolsMap_shape :
    ∀ {items : List Json} {schools : List Json}, schoolsMap items = .ok schools →
      ∀ s ∈ schools, ∃ v rest, s = .obj (("name", v) :: rest) := by
  intro items
  induction items with
  | nil =>
    intro schools h s hs
    have h' : Except.ok ([] : List Json) = Except.ok schools := h
    obtain rfl : ([] : List Json) = schools := by simpa using h'
    exact absurd hs (List.not_mem_nil s)
  | cons it rest ih =>
    intro schools h s hs
    match it, h with
    | .obj kvs, h =>
      rw [schoolsMap] at h
      obtain ⟨e, he, h⟩ := exceptBind_ok h
      obtain ⟨t, ht, h⟩ := exceptBind_ok h
      obtain rfl := pure_ok h
      rcases List.mem_cons.mp hs with rfl | hs'
      · unfold schoolEntry at he
        obtain ⟨np, hnp, he⟩ := exceptBind_ok he
        obtain ⟨sp, hsp, he⟩ := exceptBind_ok he
        obtain rfl := pure_ok he
        exact ⟨_, _, rfl⟩
      · exact ih ht s hs'
    | .null, h => exact ih h s hs
    | .bool b, h => exact ih h s hs
    | .num q, h => exact ih h s hs
    | .str t, h => exact ih h s hs
    | .arr xs, h => exact ih h s hs

theorem transformSchools_shape {raw y : Json} (h : transformSchools raw = .ok y) :
    y = raw ∨
    ∃ schools total, y = .obj [("schools", .arr schools), ("total", .num total)] ∧
      ∀ s ∈ schools, ∃ v rest, s = .obj (("name", v) :: rest) := by
  unfold transformSchools at h
  by_cases ht : raw.truthy
  · rw [if_neg (by simp [ht])] at h
    obtain ⟨b, hin, h⟩ := exceptBind_ok h
    cases b with
    | false =>
      rw [if_neg (by simp)] at h
      exact Or.inl (pure_ok h).symm
    | true =>
      rw [if_pos rfl] at h
      obtain ⟨results, hres, h⟩ := exceptBind_ok h
      obtain ⟨items, hit, h⟩ := exceptBind_ok h
      obtain ⟨schools, hsm, h⟩ := exceptBind_ok h
      obtain rfl := pure_ok h
      exact Or.inr ⟨_, _, rfl, schoolsMap_shape hsm⟩
  · rw [if_pos (by simp [ht])] at h
    obtain rfl := pure_ok h
    exact Or.inr ⟨[], 0, rfl, fun s hs => absurd hs (List.not_mem_nil s)⟩

theorem canonSchools_of_shape (schools : List Json) (total : ℚ)
    (hc : ∀ s ∈ schools, ∃ v rest, s = .obj (("name", v) :: rest)) :
    canonSchools (.obj [("schools", .arr schools), ("total", .num total)])
      = .ok (.obj [("schools", .arr schools), ("total", .num total)]) := by
  unfold canonSchools
  cases schools with
  | nil => rfl
  | cons s t =>
    obtain ⟨v, rest, rfl⟩ := hc s (List.mem_cons_self s t)
    rfl

theorem canonSchools_idem {x y : Json} (h : canonSchools x = .ok y) :
    canonSchools y = .ok y := by
  have hshape : ∀ z : Json, transformSchools x = .ok z →
      (z = x ∨ ∃ schools total,
        z = .obj [("schools", .arr schools), ("total", .num total)] ∧
        ∀ s ∈ schools, ∃ v rest, s = .obj (("name", v) :: rest)) :=
    fun _ hz => transformSchools_shape hz
  have hsplit : y = x ∨
      ∃ schools total, y = .obj [("schools", .arr schools), ("total", .num total)] ∧
        ∀ s ∈ schools, ∃ v rest, s = .obj (("name", v) :: rest) := by
    unfold canonSchools at h
    obtain ⟨b, hin, h⟩ := exceptBind_ok h
    cases b with
    | false =>
      rw [if_neg (by simp)] at h
      rcases hshape y h with hy | hs
      · exact Or.inl hy
      · exact Or.inr hs
    | true =>
      rw [if_pos rfl] at h
      obtain ⟨schools, hsc, h⟩ := exceptBind_ok h
      match schools, h with
      | .arr [], h => exact Or.inl (pure_ok h).symm
      | .arr (s :: ss), h =>
        obtain ⟨nb, hn, h⟩ := exceptBind_ok h
        cases nb with
        | true => rw [if_pos rfl] at h; exact Or.inl (pure_ok h).symm
        | false =>
          rw [if_neg (by simp)] at h
          rcases hshape y h with hy | hs
          · exact Or.inl hy
          · exact Or.inr hs
      | .null, h =>
        rcases hshape y h with hy | hs
        · exact Or.inl hy
        · exact Or.inr hs
      | .bool bb, h =>
        rcases hshape y h with hy | hs
        · exact Or.inl hy
        · exact Or.inr hs
      | .num q, h =>
        rcases hshape y h with hy | hs
        · exact Or.inl hy
        · exact Or.inr hs
      | .str s, h =>
        rcases hshape y h with hy | hs
        · exact Or.inl hy
        · exact Or.inr hs
      | .obj kvs, h =>
        rcases hshape y h with hy | hs
        · exact Or.inl hy
        · exact Or.inr hs
  rcases hsplit with rfl | ⟨schools, total, rfl, hc⟩
  · exact h
  · exact canonSchools_of_shape schools total hc

theorem devsMap_shape :
    ∀ (items : List Json) (idx : ℕ), ∀ d ∈ devsMap items idx,
      ∃ v rest, d = .obj (("id", v) :: rest) := by
  intro items
  induction items with
  | nil => intro idx d hd; exact absurd hd (List.not_mem_nil d)
  | cons it rest ih =>
    intro idx d hd
    match it, hd with
    | .obj kvs, hd =>
      rw [devsMap] at hd
      rcases List.mem_cons.mp hd with rfl | hd'
      · exact ⟨_, _, rfl⟩
      · exact ih (idx + 1) d hd'
    | .null, hd => exact ih (idx + 1) d hd
    | .bool b, hd => exact ih (idx + 1) d hd
    | .num q, hd => exact ih (idx + 1) d hd
    | .str t, hd => exact ih (idx + 1) d hd
    | .arr xs, hd => exact ih (idx + 1) d hd

theorem transformDevelopments_shape {raw y : Json}
    (h : transformDevelopments raw = .ok y) :
    y = raw ∨
    ∃ devs total showing,
      y = .obj [("developments", .arr devs), ("total", .num total),
        ("showing", .num showing)] ∧
      ∀ d ∈ devs, ∃ v rest, d = .obj (("id", v) :: rest) := by
  unfold transformDevelopments at h
  by_cases ht : raw.truthy
  · rw [if_neg (by simp [ht])] at h
    obtain ⟨b, hin, h⟩ := exceptBind_ok h
    cases b with
    | false =>
      rw [if_neg (by simp)] at h
      exact Or.inl (pure_ok h).symm
    | true =>
      rw [if_pos rfl] at h
      obtain ⟨results, hres, h⟩ := exceptBind_ok h
      obtain ⟨sliced, hsl, h⟩ := exceptBind_ok h
      obtain ⟨items, hit, h⟩ := exceptBind_ok h
      obtain ⟨total, hlen, h⟩ := exceptBind_ok h
      obtain rfl := pure_ok h
      exact Or.inr ⟨_, _, _, rfl, devsMap_shape items 0⟩
  · rw [if_pos (by simp [ht])] at h
    obtain rfl := pure_ok h
    exact Or.inr ⟨[], 0, 0, rfl, fun d hd => absurd hd (List.not_mem_nil d)⟩

theorem canonDevelopments_of_shape (devs : List Json) (total showing : ℚ)
    (hc : ∀ d ∈ devs, ∃ v rest, d = .obj (("id", v) :: rest)) :
    canonDevelopments (.obj [("developments", .arr devs), ("total", .num total),
        ("showing", .num showing)])
      = .ok (.obj [("developments", .arr devs), ("total", .num total),
        ("showing", .num showing)]) := by
  unfold canonDevelopments
  cases devs with
  | nil => rfl
  | cons d t =>
    obtain ⟨v, rest, rfl⟩ := hc d (List.mem_cons_self d t)
    rfl

theorem canonDevelopments_idem {x y : Json} (h : canonDevelopments x = .ok y) :
    canonDevelopments y = .ok y := by
  have hshape : ∀ z : Json, transformDevelopments x = .ok z →
      (z = x ∨ ∃ devs total showing,
        z = .obj [("developments", .arr devs), ("total", .num total),
          ("showing", .num showing)] ∧
        ∀ d ∈ devs, ∃ v rest, d = .obj (("id", v) :: rest)) :=
    fun _ hz => transformDevelopments_shape hz
  have hsplit : y = x ∨
      ∃ devs total showing,
        y = .obj [("developments", .arr devs), ("total", .num total),
          ("showing", .num showing)] ∧
        ∀ d ∈ devs, ∃ v rest, d = .obj (("id", v) :: rest) := by
    unfold canonDevelopments at h
    obtain ⟨b, hin, h⟩ := exceptBind_ok h
    cases b with
    | false =>
      rw [if_neg (by simp)] at h
      rcases hshape y h with hy | hs
      · exact Or.inl hy
      · exact Or.inr hs
    | true =>
      rw [if_pos rfl] at h
      obtain ⟨devs, hdv, h⟩ := exceptBind_ok h
      match devs, h with
      | .arr [], h => exact Or.inl (pure_ok h).symm
      | .arr (d :: ds), h =>
        obtain ⟨nb, hn, h⟩ := exceptBind_ok h
        cases nb with
        | true => rw [if_pos rfl] at h; exact Or.inl (pure_ok h).symm
        | false =>
          rw [if_neg (by simp)] at h
          rcases hshape y h with hy | hs
          · exact Or.inl hy
          · exact Or.inr hs
      | .null, h =>
        rcases hshape y h with hy | hs
        · exact Or.inl hy
        · exact Or.inr hs
      | .bool bb, h =>
        rcases hshape y h with hy | hs
        · exact Or.inl hy
        · exact Or.inr hs
      | .num q, h =>
        rcases hshape y h with hy | hs
        · exact Or.inl hy
        · exact Or.inr hs
      | .str s, h =>
        rcases hshape y h with hy | hs
        · exact Or.inl hy
        · exact Or.inr hs
      | .obj kvs, h =>
        rcases hshape y h with hy | hs
        · exact Or.inl hy
        · exact Or.inr hs
  rcases hsplit with rfl | ⟨devs, total, showing, rfl, hc⟩
  · exact h
  · exact canonDevelopments_of_shape devs total showing hc

theorem transformMarketTrends_shape {raw y : Json}
    (h : transformMarketTrends raw = .ok y) :
    ∃ v rest, y = .obj (("priceHistory", v) :: rest) := by
  unfold transformMarketTrends at h
  by_cases ht : raw.truthy
  · rw [if_neg (by simp [ht])] at h
    obtain ⟨b, hin, h⟩ := exceptBind_ok h
    cases b with
    | false =>
      rw [if_neg (by simp)] at h
      obtain rfl := pure_ok h
      exact ⟨_, _, rfl⟩
    | true =>
      rw [if_pos rfl] at h
      obtain ⟨results0, hres, h⟩ := exceptBind_ok h
      obtain ⟨ph, hph, h⟩ := exceptBind_ok h
      by_cases hemp : ph.isEmpty
      · rw [if_pos hemp] at h
        obtain rfl := pure_ok h
        exact ⟨_, _, rfl⟩
      · rw [if_neg hemp] at h
        obtain ⟨cur, hcur, h⟩ := exceptBind_ok h
        obtain rfl := pure_ok h
        exact ⟨_, _, rfl⟩
  · rw [if_pos (by simp [ht])] at h
    obtain rfl := pure_ok h
    exact ⟨_, _, rfl⟩

theorem canonMarketTrends_idem {x y : Json} (h : canonMarketTrends x = .ok y) :
    canonMarketTrends y = .ok y := by
  have hsplit : y = x ∨ ∃ v rest, y = .obj (("priceHistory", v) :: rest) := by
    unfold canonMarketTrends at h
    obtain ⟨b, hin, h⟩ := exceptBind_ok h
    cases b with
    | false =>
      rw [if_neg (by simp)] at h
      exact Or.inr (transformMarketTrends_shape h)
    | true =>
      rw [if_pos rfl] at h
      exact Or.inl (pure_ok h).symm
  rcases hsplit with rfl | ⟨v, rest, rfl⟩
  · exact h
  · rfl

/-- C9.  For every domain (demographics, amenities, schools, developments,
market-trends) the canonicalization is idempotent: whenever it maps a payload
`x` to `y` (without raising), it maps `y` to `y` unchanged. -/
theorem c9_canonicalization_idempotent :
    (∀ x y : Json, canonDemographics x = .ok y → canonDemographics y = .ok y) ∧
    (∀ x y : Json, canonAmenities x = .ok y → canonAmenities y = .ok y) ∧
    (∀ x y : Json, canonSchools x = .ok y → canonSchools y = .ok y) ∧
    (∀ x y : Json, canonDevelopments x = .ok y → canonDevelopments y = .ok y) ∧
    (∀ x y : Json, canonMarketTrends x = .ok y → canonMarketTrends y = .ok y) :=
  ⟨fun _ _ => canonDemographics_idem, fun _ _ => canonAmenities_idem,
   fun _ _ => canonSchools_idem, fun _ _ => canonDevelopments_idem,
   fun _ _ => canonMarketTrends_idem⟩

/-- Witness for C9 at concrete inputs: the demographics canonicalization of
the empty payload `{}` (which transforms to `{}`) is a fixpoint, and the
amenities canonicalization of `{"results": []}` produces the canonical empty
category table, itself a fixpoint. -/
theorem c9_canonicalization_idempotent_witness :
    canonDemographics (.obj []) = .ok (.obj []) ∧
    canonAmenities (.obj [("categories", .arr []), ("total", .num 0)])
      = .ok (.obj [("categories", .arr []), ("total", .num 0)]) :=
  ⟨c9_canonicalization_idempotent.1 (.obj []) (.obj []) (by rfl),
   c9_canonicalization_idempotent.2.1 (.obj [("results", .arr [])])
     (.obj [("categories", .arr []), ("total", .num 0)]) (by rfl)⟩

end PropSpec
